import Mathlib

/-!
Verification of the INSIGHT task-loop utilities (`utils.py`).

This file gives a shallow embedding of the data model and the operations of
the repository's `utils.py` and proves properties about them.  Python's
JSON-like runtime values are modelled by the inductive `PyVal`; fallible
Python operations (attribute access on a non-dict, string concatenation with
a non-string, missing dictionary keys) are modelled in the `Except PyErr`
monad.  External collaborators (the OpenAI services, the XML parser of
`xml.etree`, the generated-code interpreter) are modelled as explicit
function parameters, so the control flow of the embedded code is exactly the
control flow of the source.
-/

set_option autoImplicit false

namespace Insight

/-- Errors raised by the embedded Python fragments. -/
inductive PyErr where
  | attributeError
  | typeError
  | keyError (k : String)
  | indexError
  | nameError
deriving Repr, DecidableEq

/-- A JSON-like Python runtime value: `None`, booleans, integers, strings,
lists, tuples and string-keyed dictionaries.  This is the value universe the
result processors of `utils.py` operate on. -/
inductive PyVal where
  | none
  | bool (b : Bool)
  | int (n : Int)
  | str (s : String)
  | list (xs : List PyVal)
  | tuple (xs : List PyVal)
  | dict (kvs : List (String × PyVal))

/-- Python `x is None`. -/
def pyIsNone : PyVal → Bool
  | .none => true
  | _ => false

/-- Python truthiness: `None`, `False`, `0`, and empty containers are falsy. -/
def pyTruthy : PyVal → Bool
  | .none => false
  | .bool b => b
  | .int n => n != 0
  | .str s => !s.isEmpty
  | .list xs => !xs.isEmpty
  | .tuple xs => !xs.isEmpty
  | .dict kvs => !kvs.isEmpty

/-- A single-quote character, for rendering Python `repr` of strings. -/
def pyQuote : String := String.singleton (Char.ofNat 39)

mutual

/-- Python `repr` of a `PyVal` (used by `str` for values nested inside
containers). -/
def pyRepr : PyVal → String
  | .none => "None"
  | .bool true => "True"
  | .bool false => "False"
  | .int n => toString n
  | .str s => pyQuote ++ s ++ pyQuote
  | .list xs => "[" ++ pyReprSeq xs ++ "]"
  | .tuple xs => "(" ++ pyReprSeq xs ++ ")"
  | .dict kvs => "\x7b" ++ pyReprDict kvs ++ "\x7d"

/-- Comma-separated `repr`s of the elements of a sequence. -/
def pyReprSeq : List PyVal → String
  | [] => ""
  | [x] => pyRepr x
  | x :: xs => pyRepr x ++ ", " ++ pyReprSeq xs

/-- Comma-separated `repr`s of the entries of a dictionary. -/
def pyReprDict : List (String × PyVal) → String
  | [] => ""
  | [kv] => pyQuote ++ kv.1 ++ pyQuote ++ ": " ++ pyRepr kv.2
  | kv :: kvs => pyQuote ++ kv.1 ++ pyQuote ++ ": " ++ pyRepr kv.2 ++ ", " ++ pyReprDict kvs

end

/-- Python `str` of a `PyVal`, as used by f-string interpolation: a string
renders as itself, everything else as its `repr`. -/
def pyStr : PyVal → String
  | .str s => s
  | v => pyRepr v

/-- Python `d.get(k, default)`: a dictionary lookup with a default, raising
`AttributeError` when the receiver is not a dictionary. -/
def pyGetD (v : PyVal) (k : String) (d : PyVal) : Except PyErr PyVal :=
  match v with
  | .dict kvs => .ok (((kvs.find? (fun kv => kv.1 = k)).map (fun kv => kv.2)).getD d)
  | _ => .error .attributeError

/-- Python `d.get(k)` (default `None`). -/
def pyGet (v : PyVal) (k : String) : Except PyErr PyVal :=
  pyGetD v k .none

/-- The variant-record fields read by `process_myvariant_result`, in source
order, each re-reading through `result.get(...)` chains exactly as the
source does.  Returns the `(variant_data, citation_data)` document pair.
Mirrors `utils.py:process_myvariant_result`, loop body (lines 179-200). -/
def process_myvariant_one (result : PyVal) : Except PyErr PyVal := do
  let variant_name ← pyGet result "_id"
  let gene_affected ← do
    let cadd ← pyGetD result "cadd" (.dict [])
    let gene ← pyGetD cadd "gene" (.dict [])
    pyGet gene "genename"
  let consequence ← do
    let cadd ← pyGetD result "cadd" (.dict [])
    pyGet cadd "consequence"
  let cadd_score ← do
    let cadd ← pyGetD result "cadd" (.dict [])
    pyGet cadd "phred"
  let rsid ← do
    let dbsnp ← pyGetD result "dbsnp" (.dict [])
    pyGet dbsnp "rsid"
  let variant_data := ""
  let citation_data := ""
  let variant_data := variant_data ++
    (if pyTruthy variant_name then "Variant Name: " ++ pyStr variant_name ++ "\n" else "")
  let variant_data := variant_data ++
    (if pyTruthy gene_affected then "Gene Affected: " ++ pyStr gene_affected ++ "\n" else "")
  let variant_data := variant_data ++
    (if pyTruthy consequence then "Consequence: " ++ pyStr consequence ++ "\n" else "")
  let variant_data := variant_data ++
    (if !pyIsNone cadd_score then "CADD Score: " ++ pyStr cadd_score ++ "\n" else "")
  let variant_data := variant_data ++
    (if pyTruthy rsid then "rsID: " ++ pyStr rsid ++ "\n" else "")
  pure (.tuple [.str variant_data, .dict [("citation_data", .str citation_data)]])

/-- Python `if not isinstance(x, list): x = [x]`. -/
def pyWrapList (v : PyVal) : List PyVal :=
  match v with
  | .list xs => xs
  | v => [v]

/-- Embedding of `utils.py:process_myvariant_result` (lines 172-202): wrap a
non-list input, then append one `(variant_data, citation_data)` pair per
record — unconditionally, even when no field of the record is set. -/
def process_myvariant_result (results : PyVal) : Except PyErr (List PyVal) :=
  (pyWrapList results).foldlM
    (fun acc r => do
      let d ← process_myvariant_one r
      pure (acc ++ [d]))
    []

/-- Python `"sep".join(x)`: joins an iterable of strings, raising `TypeError`
when the receiver is not iterable or an element is not a string (a string
iterates over its characters, a dictionary over its keys). -/
def pyStrSeq : List PyVal → Except PyErr (List String)
  | [] => .ok []
  | .str s :: xs => do pure (s :: (← pyStrSeq xs))
  | _ :: _ => .error .typeError

/-- Python `", ".join(v)`. -/
def pyJoinComma (v : PyVal) : Except PyErr String :=
  match v with
  | .str s => .ok (String.intercalate ", " (s.data.map String.singleton))
  | .list xs => do pure (String.intercalate ", " (← pyStrSeq xs))
  | .tuple xs => do pure (String.intercalate ", " (← pyStrSeq xs))
  | .dict kvs => .ok (String.intercalate ", " (kvs.map (fun kv => kv.1)))
  | _ => .error .typeError

/-- Python `acc += text` on strings: raises `TypeError` when `text` is not a
string. -/
def pyAddStr (acc : String) (v : PyVal) : Except PyErr String :=
  match v with
  | .str s => .ok (acc ++ s)
  | _ => .error .typeError

/-- Python `x[:20]` followed by iteration: lists and tuples are truncated,
strings iterate over their characters, everything else raises `TypeError`. -/
def pySlice20 (v : PyVal) : Except PyErr (List PyVal) :=
  match v with
  | .list xs => .ok (xs.take 20)
  | .tuple xs => .ok (xs.take 20)
  | .str s => .ok ((s.data.take 20).map (fun c => .str (String.singleton c)))
  | _ => .error .typeError

/-- Python `v == "lit"` for a literal string: values of other types are never
equal to a string. -/
def pyEqStr (v : PyVal) (s : String) : Bool :=
  match v with
  | .str t => t == s
  | _ => false

/-- Python `str.strip()` on a character list: drop whitespace from both
ends. -/
def stripChars (l : List Char) : List Char :=
  ((l.dropWhile Char.isWhitespace).reverse.dropWhile Char.isWhitespace).reverse

/-- Python `s.strip()`. -/
def pyStrip (s : String) : String := String.mk (stripChars s.data)

/-- The field lines of the summary document of `process_mygene_result`
(lines 228-241), in source order. -/
def mygene_summary_fields (name refseq_genomic refseq_rna symbol taxid type_of_gene
    pos : PyVal) : Except PyErr String := do
  let out := ""
  let out := out ++ (if pyTruthy name then "Gene Name: " ++ pyStr name ++ "\n" else "")
  let out ← if pyTruthy refseq_genomic then do
      pure (out ++ "RefSeq genomic: " ++ (← pyJoinComma refseq_genomic) ++ "\n")
    else pure out
  let out ← if pyTruthy refseq_rna then do
      pure (out ++ "RefSeq rna: " ++ (← pyJoinComma refseq_rna) ++ "\n")
    else pure out
  let out := out ++ (if pyTruthy symbol then "Symbol: " ++ pyStr symbol ++ "\n" else "")
  let out := out ++ (if pyTruthy taxid then "Tax ID: " ++ pyStr taxid ++ "\n" else "")
  let out := out ++
    (if pyTruthy type_of_gene && !pyEqStr type_of_gene "unknown" then
      "Type of gene: " ++ pyStr type_of_gene ++ "\n" else "")
  pure (out ++ (if pyTruthy pos then "Position: " ++ pyStr pos ++ "\n" else ""))

/-- The body of the generif loop of `process_mygene_result` (lines 248-256):
a research note's text is appended to the summary when present (raising
`TypeError` when the truthy text is not a string, `AttributeError` when the
note is not a dictionary), its PubMed id to the citation data. -/
def mygene_rif_step (acc : String × String) (rif : PyVal) :
    Except PyErr (String × String) := do
  let pubmed ← pyGet rif "pubmed"
  let text ← pyGet rif "text"
  if pyTruthy text then
    let out ← pyAddStr acc.1 text
    let cit := if pyTruthy pubmed then
        acc.2 ++ " Pubmed ID: " ++ pyStr pubmed
      else acc.2
    pure (out, cit)
  else
    pure acc

/-- The `output_summary`/`citation_data` construction of
`utils.py:process_mygene_result` (lines 224-258), given the fetched fields. -/
def mygene_output_summary (name refseq_genomic refseq_rna symbol taxid type_of_gene
    pos summary generif : PyVal) : Except PyErr (String × String) := do
  let citation_data := ""
  let out ← mygene_summary_fields name refseq_genomic refseq_rna symbol taxid
    type_of_gene pos
  if pyTruthy summary then
    pure (out ++ "Summary of " ++ pyStr name ++ ": " ++ pyStr summary ++ "\n", citation_data)
  else if pyTruthy generif then do
    let rifs ← pySlice20 generif
    rifs.foldlM mygene_rif_step (out, citation_data)
  else
    pure (out, citation_data)

/-- Python `if type(v) is not list: v = [v]`, the singleton normalization of
`process_mygene_result` for pathway-database entries (lines 285-287). -/
def normListVal (v : PyVal) : List PyVal :=
  match v with
  | .list xs => xs
  | v => [v]

/-- One pathway entry's ` ID: ... Name: ...` rendering (lines 311-313):
the entry's `id` and `name` attributes, `AttributeError` on non-dict
entries. -/
def mygene_item_line (out : String) (item : PyVal) : Except PyErr String := do
  let idv ← pyGetD item "id" (.str "")
  let out := out ++ " ID: " ++ pyStr idv
  let namev ← pyGetD item "name" (.str "")
  pure (out ++ " Name: " ++ pyStr namev)

/-- The pathway-listing rendering of `process_mygene_result`
(lines 309-313). -/
def mygene_pathway_listing (elements : List (String × List PyVal)) :
    Except PyErr String :=
  elements.foldlM
    (fun out kv => kv.2.foldlM mygene_item_line (out ++ "\n" ++ kv.1 ++ ":\n"))
    ""

/-- The field lines of the pathway document of `process_mygene_result`
(lines 292-305), in source order. -/
def mygene_pathway_fields (name symbol taxid type_of_gene refseq_genomic refseq_rna
    pos : PyVal) : Except PyErr String := do
  let out := ""
  let out := out ++ (if pyTruthy name then "Gene Name: " ++ pyStr name ++ "\n" else "")
  let out := out ++ (if pyTruthy symbol then "Symbol: " ++ pyStr symbol ++ "\n" else "")
  let out := out ++ (if pyTruthy taxid then "Tax ID: " ++ pyStr taxid ++ "\n" else "")
  let out := out ++
    (if pyTruthy type_of_gene && !pyEqStr type_of_gene "unknown" then
      "Type of gene: " ++ pyStr type_of_gene ++ "\n" else "")
  let out ← if pyTruthy refseq_genomic then do
      pure (out ++ "RefSeq genomic: " ++ (← pyJoinComma refseq_genomic) ++ "\n")
    else pure out
  let out ← if pyTruthy refseq_rna then do
      pure (out ++ "RefSeq rna: " ++ (← pyJoinComma refseq_rna) ++ "\n")
    else pure out
  pure (out ++ (if pyTruthy pos then "Position: " ++ pyStr pos ++ "\n" else ""))

/-- The `output_pathway` construction of `process_mygene_result`
(lines 289-317), given the fetched fields and the normalized pathway
elements. -/
def mygene_output_pathway (name symbol taxid type_of_gene refseq_genomic refseq_rna
    pos : PyVal) (elements : List (String × List PyVal)) : Except PyErr String := do
  let out ← mygene_pathway_fields name symbol taxid type_of_gene refseq_genomic
    refseq_rna pos
  let out := out ++ "PATHWAYS\n\n"
  let listing ← mygene_pathway_listing elements
  pure (out ++ listing)

/-- Embedding of the per-record body of `utils.py:process_mygene_result`
(lines 212-321): one optional summary document followed by one optional
pathway document. -/
def process_mygene_one (json_data : PyVal) : Except PyErr (List PyVal) := do
  let name ← pyGet json_data "name"
  let refseq_genomic ← do
    let refseq ← pyGetD json_data "refseq" (.dict [])
    pyGetD refseq "genomic" (.list [])
  let refseq_rna ← do
    let refseq ← pyGetD json_data "refseq" (.dict [])
    pyGetD refseq "rna" (.list [])
  let symbol ← pyGet json_data "symbol"
  let taxid ← pyGet json_data "taxid"
  let type_of_gene ← pyGet json_data "type_of_gene"
  let pos ← pyGet json_data "genomic_pos_hg19"
  let summary ← pyGet json_data "summary"
  let generif ← pyGet json_data "generif"
  let (output_summary, citation_data) ←
    mygene_output_summary name refseq_genomic refseq_rna symbol taxid type_of_gene
      pos summary generif
  let output_summary := pyStrip output_summary
  let docs : List PyVal :=
    if output_summary ≠ "" then
      [.tuple [.str output_summary, .dict [("citation_data", .str citation_data)]]]
    else []
  let pathway ← pyGet json_data "pathway"
  if pyTruthy pathway then do
    let kegg ← pyGetD pathway "kegg" (.list [])
    let pid ← pyGetD pathway "pid" (.list [])
    let reactome ← pyGetD pathway "reactome" (.list [])
    let wikipathways ← pyGetD pathway "wikipathways" (.list [])
    let netpath ← pyGetD pathway "netpath" (.list [])
    let biocarta ← pyGetD pathway "biocarta" (.list [])
    let pathway_elements : List (String × List PyVal) :=
      [("kegg", normListVal kegg), ("pid", normListVal pid),
       ("reactome", normListVal reactome), ("wikipathways", normListVal wikipathways),
       ("netpath", normListVal netpath), ("biocarta", normListVal biocarta)]
    let output_pathway ←
      mygene_output_pathway name symbol taxid type_of_gene refseq_genomic refseq_rna
        pos pathway_elements
    let output_pathway := pyStrip output_pathway
    if output_pathway ≠ "" then
      pure (docs ++ [.tuple [.str output_pathway, .dict [("citation_data", .str "")]]])
    else
      pure docs
  else
    pure docs

/-- Embedding of `utils.py:process_mygene_result` (lines 205-323). -/
def process_mygene_result (results : PyVal) : Except PyErr (List PyVal) :=
  (pyWrapList results).foldlM
    (fun acc r => do
      let ds ← process_mygene_one r
      pure (acc ++ ds))
    []

/-- An element tree in the style of `xml.etree.ElementTree`: a tag, XML
attributes, the element's text (which `ElementTree` reports as `None` when
absent) and the list of child elements. -/
inductive Xml where
  | elem (tag : String) (attrs : List (String × String)) (text : Option String)
      (children : List Xml)

/-- The element's tag. -/
def Xml.tag : Xml → String
  | .elem t _ _ _ => t

/-- The element's attributes. -/
def Xml.attrs : Xml → List (String × String)
  | .elem _ a _ _ => a

/-- The element's text. -/
def Xml.text : Xml → Option String
  | .elem _ _ s _ => s

/-- The element's children. -/
def Xml.children : Xml → List Xml
  | .elem _ _ _ c => c

mutual

/-- All elements of the subtree in document (preorder) order, the element
itself included — the traversal order of `ElementTree`'s `iter`. -/
def Xml.descendants : Xml → List Xml
  | .elem t a s c => .elem t a s c :: Xml.descendantsList c

/-- Preorder traversal of a forest. -/
def Xml.descendantsList : List Xml → List Xml
  | [] => []
  | x :: xs => x.descendants ++ Xml.descendantsList xs

end

/-- Python `elem.iter(tag)`: the subtree elements with the given tag, in
document order. -/
def Xml.iter (x : Xml) (tag : String) : List Xml :=
  x.descendants.filter (fun n => n.tag = tag)

/-- Python `elem.find(tag)`: the first direct child with the given tag. -/
def Xml.findTag (x : Xml) (tag : String) : Option Xml :=
  x.children.find? (fun n => n.tag = tag)

/-- Python `elem.get(attr)`: attribute lookup, `None` when absent. -/
def Xml.attr (x : Xml) (k : String) : Option String :=
  (x.attrs.find? (fun kv => kv.1 = k)).map (fun kv => kv.2)

/-- Python f-string rendering of `elem.text`: the text itself, or `"None"`
when the element has no text. -/
def textStr (o : Option String) : String :=
  match o with
  | some s => s
  | Option.none => "None"

/-- The `Author` loop of `process_pubmed_result` (lines 344-349): each
author's last and fore name appended to the citation data under a
`try/except` that keeps partial updates made before a failing access. -/
def pubmed_author_cit (article : Xml) (cit : String) : String :=
  (article.iter "Author").foldl
    (fun c a =>
      match a.findTag "LastName" with
      | Option.none => c
      | some ln =>
        let c := c ++ textStr ln.text
        match a.findTag "ForeName" with
        | Option.none => c
        | some fn => c ++ ", " ++ textStr fn.text ++ "\n")
    cit

/-- The `PubDate` loop of `process_pubmed_result` (lines 357-366): a
best-effort `year-month-day` rendering under a `try/except` that keeps the
partial date written before the first missing component. -/
def pubmed_pubdate_cit (article : Xml) (cit : String) : String :=
  (article.iter "PubDate").foldl
    (fun c p =>
      match p.findTag "Year" with
      | Option.none => c
      | some y =>
        let c := c ++ textStr y.text
        match p.findTag "Month" with
        | Option.none => c
        | some m =>
          let c := c ++ "-" ++ textStr m.text
          match p.findTag "Day" with
          | Option.none => c
          | some d => c ++ "-" ++ textStr d.text ++ "\n")
    cit

/-- The body of the `Journal` loop of `process_pubmed_result`
(lines 350-352): `journal.find('Title').text` raises `AttributeError` when
the `Journal` element has no `Title` child; otherwise the journal title is
appended to both the document body and the citation data. -/
def pubmed_journal_step (rc : String × String) (j : Xml) : Except PyErr (String × String) :=
  match j.findTag "Title" with
  | Option.none => Except.error PyErr.attributeError
  | some t => Except.ok (rc.1 ++ textStr t.text ++ "\n", rc.2 ++ textStr t.text ++ "\n")

/-- The per-article body of `utils.py:process_pubmed_result` (lines 336-369):
accumulates the document body `res_` (titles, abstract fragments, journal
titles, DOIs) and `citation_data` (titles, authors, journal titles, volume,
issue, publication date).  A `Journal` element without a `Title` child makes
`journal.find('Title').text` raise `AttributeError`; the author and
publication-date accesses sit inside `try/except` blocks whose partial
string updates before the failing access are kept, exactly as in Python. -/
def process_pubmed_article (article : Xml) : Except PyErr (String × String) := do
  let res := ""
  let cit := ""
  let res := (article.iter "Title").foldl (fun r t => r ++ textStr t.text ++ "\n") res
  let cit := (article.iter "Title").foldl (fun c t => c ++ textStr t.text ++ "\n") cit
  let res := (article.iter "AbstractText").foldl
    (fun r t => r ++ textStr t.text ++ "\n") res
  let cit := pubmed_author_cit article cit
  let rc ← (article.iter "Journal").foldlM pubmed_journal_step (res, cit)
  let res := rc.1
  let cit := rc.2
  let cit := (article.iter "Volume").foldl (fun c v => c ++ textStr v.text ++ "\n") cit
  let cit := (article.iter "Issue").foldl (fun c v => c ++ textStr v.text ++ "\n") cit
  let cit := pubmed_pubdate_cit article cit
  let res := (article.iter "ELocationID").foldl
    (fun r d => if d.attr "EIdType" = some "doi" then r ++ textStr d.text ++ "\n" else r)
    res
  pure (res, cit)

/-- The successful-parse body of `utils.py:process_pubmed_result`
(lines 334-374): one document per direct child of the root whose
accumulated body text is non-empty. -/
def process_pubmed_parsed (root : Xml) : Except PyErr (List PyVal) :=
  root.children.foldlM
    (fun acc article => do
      let rc ← process_pubmed_article article
      if rc.1 ≠ "" then
        pure (acc ++ [.tuple [.str rc.1, .dict [("citation_data", .str rc.2)]]])
      else
        pure acc)
    []

/-- Python `ET.fromstring` lifted to `PyVal`: only strings can parse, any
other value raises `TypeError` (which the caller catches).  The string
parser itself is external and passed in. -/
def pyParseXml (parse : String → Option Xml) : PyVal → Option Xml
  | .str s => parse s
  | _ => Option.none

/-- Embedding of `utils.py:process_pubmed_result` (lines 326-374): on parse
failure, return the raw input (wrapped in a list when it is not already a
list); on success, process the article tree. -/
def process_pubmed_result (parse : String → Option Xml) (result : PyVal) :
    Except PyErr (List PyVal) :=
  match pyParseXml parse result with
  | Option.none => .ok (pyWrapList result)
  | some root => process_pubmed_parsed root

/-- The per-tool call cache: `defaultdict(list)` mapping a tool name to the
ordered list of recorded call-parameter strings. -/
abbrev Cache := List (String × List String)

/-- `cache[k]` of a `defaultdict(list)`: the recorded list, `[]` when the key
has never been written. -/
def cacheGet (c : Cache) (k : String) : List String :=
  ((c.find? (fun kv => kv.1 = k)).map (fun kv => kv.2)).getD []

/-- `cache[k].append(v)` of a `defaultdict(list)`: append in place, creating
the key when absent. -/
def cacheAppend (c : Cache) (k : String) (v : String) : Cache :=
  if (c.find? (fun kv => kv.1 = k)).isSome then
    c.map (fun kv => if kv.1 = k then (kv.1, kv.2 ++ [v]) else kv)
  else
    c ++ [(k, [v])]

/-- One stored result of a task, as appended by `handle_results`
(`utils.py` lines 565-572). -/
structure ResultRec where
  task_id_counter : Nat
  vectorized_data : List Int
  output : String
  metadata : PyVal

/-- The per-task entry of `doc_store["tasks"]`. -/
structure TaskDoc where
  result_code : Option String
  executive_summary : Option String
  results : List ResultRec

/-- The `doc_store` dictionary (its `"tasks"` sub-dictionary). -/
structure DocStore where
  tasks : List (String × TaskDoc)

/-- `doc_store["tasks"][key]["result_code"] = code` — `KeyError` when the
task key is absent. -/
def docStoreSetCode (ds : DocStore) (key code : String) : Except PyErr DocStore :=
  if (ds.tasks.find? (fun kv => kv.1 = key)).isSome then
    .ok ⟨ds.tasks.map (fun kv =>
      if kv.1 = key then (kv.1, { kv.2 with result_code := some code }) else kv)⟩
  else
    .error (.keyError key)

/-- `doc_store["tasks"][key]["results"].append(rec)` — `KeyError` when the
task key is absent. -/
def docStoreAppendResult (ds : DocStore) (key : String) (rec : ResultRec) :
    Except PyErr DocStore :=
  if (ds.tasks.find? (fun kv => kv.1 = key)).isSome then
    .ok ⟨ds.tasks.map (fun kv =>
      if kv.1 = key then (kv.1, { kv.2 with results := kv.2.results ++ [rec] }) else kv)⟩
  else
    .error (.keyError key)

/-- Does the character list start with the given pattern? -/
def leadsWith : List Char → List Char → Bool
  | [], _ => true
  | _ :: _, [] => false
  | a :: as, b :: bs => a == b && leadsWith as bs

/-- Does the pattern occur anywhere in the character list? -/
def occursIn : List Char → List Char → Bool
  | sub, [] => leadsWith sub []
  | sub, c :: s => leadsWith sub (c :: s) || occursIn sub s

/-- Substring containment, Python's `sub in s`. -/
def strContainsSub (s sub : String) : Bool :=
  occursIn sub.data s.data

/-- Python `task.split(":")[0]`: the part of the string before the first
colon (the whole string when there is none). -/
def toolTag (task : String) : String :=
  String.mk (task.data.takeWhile (fun c => c != ':'))

/-- Embedding of `utils.py:execute_python` (lines 159-169).  Running the
generated code is external; its outcome is passed in: `.error` when `exec`
raised (the function catches it, prints, and returns `None`), `.ok (some v)`
when the code bound `ret` to `v`, and `.ok none` when the code completed
without binding `ret` (then `loc["ret"]` raises `KeyError`, uncaught). -/
def execute_python (outcome : Except String (Option PyVal)) : Except PyErr PyVal :=
  match outcome with
  | .error _ => .ok .none
  | .ok (some v) => .ok v
  | .ok Option.none => .error (.keyError "ret")

/-- The wrapper-import preamble and `ret = ...` suffix that
`handle_python_result` wraps around the generated parameter-binding code,
selected by `task.split(":")[0]` (lines 462-480). -/
def build_tool_code (tool result : String) : String :=
  if tool = "MYGENE" then
    "from api.mygene_wrapper import mygene_wrapper\n" ++ result ++
      "\nret = mygene_wrapper(query_term, size, from_)"
  else if tool = "MYVARIANT" then
    "from api.myvariant_wrapper import myvariant_wrapper\n" ++ result ++
      "\nret = myvariant_wrapper(query_term)"
  else if tool = "PUBMED" then
    "from api.pubmed_wrapper import pubmed_wrapper\n" ++ result ++
      "\nret = pubmed_wrapper(query_term, retmax, retstart)"
  else
    result

/-- Embedding of `utils.py:handle_python_result` (lines 457-543).  `parse`
models `ET.fromstring` and `exec` the generated-code interpreter.  Returns
the updated cache and doc store together with `some processed_result`, or
`none` for the early `return` of the did-not-run branch; Python exceptions
escape as `.error`.  Note the source order: the three tool branches (which
record a success- or empty-annotated cache entry and run the tool's result
processor on `executed_result`) run *before* the `executed_result is None`
check, and a task matching no tool reaches `return processed_result` with
the variable unbound (`NameError`). -/
def handle_python_result (parse : String → Option Xml)
    (exec : String → Except String (Option PyVal))
    (result : String) (cache : Cache) (task : String)
    (doc_store : DocStore) (doc_store_task_key : String) :
    Except PyErr (Cache × DocStore × Option (List PyVal)) := do
  let params := result
  let doc_store ← docStoreSetCode doc_store doc_store_task_key result
  let tool := toolTag task
  let result := build_tool_code tool result
  let executed_result ← execute_python (exec result)
  let executed_result := match executed_result with
    | .list xs => .list (xs.filter pyTruthy)
    | v => v
  let results_returned := !(!pyIsNone executed_result && !pyTruthy executed_result)
  let callRec := if results_returned then "---\n" ++ params ++ "---\n"
    else "---\nNote: This call returned no results\n" ++ params ++ "---\n"
  let state ←
    if strContainsSub task "MYVARIANT" then do
      let cache := cacheAppend cache "MYVARIANT" callRec
      let pr ← process_myvariant_result executed_result
      pure (cache, some pr)
    else pure (cache, (Option.none : Option (List PyVal)))
  let state ←
    if strContainsSub task "MYGENE" then do
      let cache := cacheAppend state.1 "MYGENE" callRec
      let pr ← process_mygene_result executed_result
      pure (cache, some pr)
    else pure state
  let state ←
    if strContainsSub task "PUBMED" then do
      let cache := cacheAppend state.1 "PUBMED" callRec
      let pr ← process_pubmed_result parse executed_result
      pure (cache, some pr)
    else pure state
  let cache := state.1
  if pyIsNone executed_result then
    let failRec := "---\nNote: This call did not run succesfully\n" ++ params ++ "---\n"
    let cache := if strContainsSub task "MYGENE" then cacheAppend cache "MYGENE" failRec
      else cache
    let cache := if strContainsSub task "PUBMED" then cacheAppend cache "PUBMED" failRec
      else cache
    let cache := if strContainsSub task "MYVARIANT" then cacheAppend cache "MYVARIANT" failRec
      else cache
    pure (cache, doc_store, Option.none)
  else
    match state.2 with
    | some pr => pure (cache, doc_store, some pr)
    | Option.none => Except.error PyErr.nameError

/-- A document inserted into the llama index by `insert_doc_llama_index`. -/
structure InsertedDoc where
  doc_id : String
  text : String
  metadata : PyVal
  embedding : List Int
  excluded_llm_metadata_keys : List String
  excluded_embed_metadata_keys : List String

/-- Python string slicing `s[:n]`: the first `n` characters. -/
def pyTake (s : String) (n : Nat) : String :=
  String.mk (s.data.take n)

/-- Python `r[i]` for sequences; `IndexError`/`TypeError` otherwise. -/
def pyIndex (v : PyVal) (i : Nat) : Except PyErr PyVal :=
  match v with
  | .list xs => match xs.get? i with
    | some x => .ok x
    | Option.none => .error .indexError
  | .tuple xs => match xs.get? i with
    | some x => .ok x
    | Option.none => .error .indexError
  | .str s => match s.data.get? i with
    | some c => .ok (.str (String.singleton c))
    | Option.none => .error .indexError
  | _ => .error .typeError

/-- Embedding of `utils.py:insert_doc_llama_index` (lines 448-454): when the
given embedding is falsy, compute one from the data via the (external)
embedding service `embed`; then append the document, with `citation_data`
excluded from LLM context and embedding input. -/
def insert_doc_llama_index (embed : String → List Int) (index : List InsertedDoc)
    (doc_id data : String) (metadata : PyVal) (embedding : List Int) :
    List InsertedDoc :=
  let embedding := if embedding.isEmpty then embed data else embedding
  index ++ [{ doc_id := doc_id, text := data, metadata := metadata,
              embedding := embedding,
              excluded_llm_metadata_keys := ["citation_data"],
              excluded_embed_metadata_keys := ["citation_data"] }]

/-- The loop body of `utils.py:handle_results` (lines 550-572), with `i` the
`enumerate` index: truncate the stringified body to `RESULT_CUTOFF`
characters, embed it, insert it into the index, and append the result record
to the task's doc-store entry. -/
def handle_results_go (embed : String → List Int) (cutoff counter : Nat)
    (doc_store_key : String) :
    Nat → List PyVal → List InsertedDoc → DocStore →
      Except PyErr (List InsertedDoc × DocStore)
  | _, [], index, ds => .ok (index, ds)
  | i, r :: rest, index, ds => do
    let res0 ← pyIndex r 0
    let metadata ← pyIndex r 1
    let res := pyTake (pyStr res0) cutoff
    let vectorized_data := embed res
    let task_id := "doc_id_" ++ toString counter ++ "_" ++ toString i
    let index := insert_doc_llama_index embed index task_id res metadata vectorized_data
    let ds ← docStoreAppendResult ds doc_store_key
      { task_id_counter := counter, vectorized_data := vectorized_data,
        output := res, metadata := metadata }
    handle_results_go embed cutoff counter doc_store_key (i + 1) rest index ds

/-- Embedding of `utils.py:handle_results` (lines 546-572). -/
def handle_results (embed : String → List Int) (result : List PyVal)
    (index : List InsertedDoc) (doc_store : DocStore) (doc_store_key : String)
    (task_id_counter RESULT_CUTOFF : Nat) :
    Except PyErr (List InsertedDoc × DocStore) :=
  handle_results_go embed RESULT_CUTOFF task_id_counter doc_store_key 0 result
    index doc_store

/-- A value of the persisted `state.json` dictionary. -/
inductive SVal where
  | s (v : String)
  | i (v : Int)
  | ls (v : List String)
  | cacheV (v : List (String × List String))
deriving Repr, DecidableEq

/-- The session state threaded through `save` and reconstructed by `load`. -/
structure SessionState where
  objective : String
  current_datetime : String
  task_id_counter : Int
  task_list : List String
  completed_tasks : List String
  cache : Cache
  reload_count : Int
  summaries : List String
deriving Repr, DecidableEq

/-- The `state` dictionary written to `state.json` by `utils.py:save`
(lines 813-824): `task_list` is listed from the deque and `cache` from the
defaultdict, both preserving order. -/
def save_state (st : SessionState) : List (String × SVal) :=
  [("summaries", .ls st.summaries),
   ("reload_count", .i st.reload_count),
   ("task_id_counter", .i st.task_id_counter),
   ("task_list", .ls st.task_list),
   ("completed_tasks", .ls st.completed_tasks),
   ("cache", .cacheV st.cache),
   ("current_datetime", .s st.current_datetime),
   ("objective", .s st.objective)]

/-- `json_data[k]`, raising the `Missing key` error `load` reports for an
absent required key (lines 900-903). -/
def json_lookup (j : List (String × SVal)) (k : String) : Except String SVal :=
  match j.find? (fun kv => kv.1 = k) with
  | some kv => .ok kv.2
  | Option.none =>
    .error ("Missing key " ++ pyQuote ++ k ++ pyQuote ++ " in JSON file")

/-- `json_data["reload_count"] + 1`: integer increment, `TypeError`
otherwise. -/
def sval_add_one : SVal → Except String Int
  | .i n => .ok (n + 1)
  | _ => .error "TypeError"

/-- Coerce a state value to a string field. -/
def sval_str : SVal → Except String String
  | .s v => .ok v
  | _ => .error "TypeError"

/-- Coerce a state value to an integer field. -/
def sval_int : SVal → Except String Int
  | .i v => .ok v
  | _ => .error "TypeError"

/-- Coerce a state value to a string-list field (`deque(task_list)` keeps
the order). -/
def sval_list : SVal → Except String (List String)
  | .ls v => .ok v
  | _ => .error "TypeError"

/-- Coerce a state value to the cache (`defaultdict(list, cache)` keeps the
entries). -/
def sval_cache : SVal → Except String Cache
  | .cacheV v => .ok v
  | _ => .error "TypeError"

/-- Embedding of the state-reading part of `utils.py:load` (lines 886-915):
read each required key in source order (a missing key is a fatal, named
error), increment the reload counter, rebuild the deque and the
defaultdict. -/
def load_state (j : List (String × SVal)) : Except String SessionState := do
  let reload_count ← sval_add_one (← json_lookup j "reload_count")
  let task_id_counter ← sval_int (← json_lookup j "task_id_counter")
  let task_list ← sval_list (← json_lookup j "task_list")
  let completed_tasks ← sval_list (← json_lookup j "completed_tasks")
  let cache ← sval_cache (← json_lookup j "cache")
  let current_datetime ← sval_str (← json_lookup j "current_datetime")
  let objective ← sval_str (← json_lookup j "objective")
  let summaries ← sval_list (← json_lookup j "summaries")
  pure { objective := objective, current_datetime := current_datetime,
         task_id_counter := task_id_counter, task_list := task_list,
         completed_tasks := completed_tasks, cache := cache,
         reload_count := reload_count, summaries := summaries }

/-- The OpenAI error classes of the `openai.error` module that appear in
`utils.py`. -/
inductive OpenAIErr where
  | rateLimitError
  | apiError
  | apiConnectionError
  | serviceUnavailableError
  | timeout
  | invalidRequestError
  | authenticationError
deriving Repr, DecidableEq

/-- The exception tuple of the `backoff.on_exception` decorators on
`get_gpt_completion` and `get_gpt_chat_completion` (lines 703-712 and
733-742): exactly these error classes are retried. -/
def gpt_retry_errors : OpenAIErr → Bool
  | .rateLimitError => true
  | .apiError => true
  | .apiConnectionError => true
  | .serviceUnavailableError => true
  | .timeout => true
  | _ => false

/-- The delay before the `n`-th retry under
`partial(backoff.expo, max_value=50)`: exponential, capped at
`max_value`. -/
def backoff_expo (max_value n : Nat) : Nat :=
  min (2 ^ n) max_value

/-- Semantics of `backoff.on_exception` over a stream of attempt outcomes:
return the first success or the first non-retryable error; `none` when the
provided outcomes are exhausted while still retrying (the decorator has no
`max_tries`, so it never gives up on a retryable error). -/
def backoff_run {A : Type} (retryable : OpenAIErr → Bool) :
    List (Except OpenAIErr A) → Option (Except OpenAIErr A)
  | [] => Option.none
  | .ok v :: _ => some (.ok v)
  | .error e :: rest =>
    if retryable e then backoff_run retryable rest else some (.error e)

/-- Embedding of the retry behaviour of `utils.py:get_gpt_completion`
(lines 703-730): the completion call, decorated with exponential backoff on
the five listed error classes.  The attempt outcomes of the
underlying `openai.Completion.create` call are passed in. -/
def get_gpt_completion (attempts : List (Except OpenAIErr String)) :
    Option (Except OpenAIErr String) :=
  backoff_run gpt_retry_errors attempts

/-- Embedding of the retry behaviour of `utils.py:get_gpt_chat_completion`
(lines 733-754), identical backoff policy. -/
def get_gpt_chat_completion (attempts : List (Except OpenAIErr String)) :
    Option (Except OpenAIErr String) :=
  backoff_run gpt_retry_errors attempts

/-- The input truncation of `utils.py:get_ada_embedding` (lines 436-442):
newlines replaced by spaces, then truncated at the embedding-size limit when
the (external) tokenizer counts it over budget. -/
def ada_truncate (num_tokens : String → Nat) (text : String) : String :=
  let text := text.replace "\n" " "
  if num_tokens text > 8191 then text.take 8191 else text

/-- Embedding of `utils.py:get_ada_embedding` (lines 436-445): the function
carries *no* `backoff` decorator, so only the first outcome of the
underlying `openai.Embedding.create` call is ever observed — a failure
propagates without retry. -/
def get_ada_embedding (num_tokens : String → Nat)
    (embedCall : String → List (Except OpenAIErr (List Int))) (text : String) :
    Option (Except OpenAIErr (List Int)) :=
  (embedCall (ada_truncate num_tokens text)).head?

/-- A response of the llama-index query engine. -/
structure QueryResp where
  response : String
  metadata : PyVal

/-- A call made to the underlying retrieval/synthesis service. -/
inductive ServiceCall where
  | engineQuery (q : String)
  | listIndexQuery (q : String)
deriving Repr, DecidableEq

/-- The document store of the llama index (`index.docstore.docs`). -/
structure LlamaIndex where
  docs : List (String × PyVal)

/-- The citation-collection epilogue of `utils.py:query_knowledge_base`
(lines 609-620): gather `citation_data` metadata of the contributing
documents (exceptions during the gathering are caught and leave the info
empty), drop it entirely when every entry is falsy, and join.  The join
itself sits outside the `try` block. -/
def qkb_citations (metadata : PyVal) : Except PyErr String :=
  if !pyTruthy metadata then .ok ""
  else
    match metadata with
    | .dict kvs =>
      match kvs.mapM (fun kv => pyGet kv.2 "citation_data") with
      | .error _ => .ok ""
      | .ok infos =>
        let infos := if infos.any pyTruthy then infos else []
        do pure (String.intercalate "\n\n" (← pyStrSeq infos))
    | _ => .ok ""

/-- Embedding of `utils.py:query_knowledge_base` (lines 575-620): when the
document store is empty, print a warning and return `None` without
constructing or invoking any query engine; otherwise issue exactly one query
against the (external) engine — the sequential list-index engine when
`list_index` is set — and return the response with the joined citation
data.  The second component lists the external service calls performed. -/
def query_knowledge_base (engineQ listQ : String → QueryResp) (index : LlamaIndex)
    (query response_mode : String) (top_k : Nat) (list_index : Bool) :
    Except PyErr (Option (String × String)) × List ServiceCall :=
  if index.docs.isEmpty then (.ok Option.none, [])
  else
    let rc :=
      if list_index then (listQ query, [ServiceCall.listIndexQuery query])
      else (engineQ query, [ServiceCall.engineQuery query])
    match qkb_citations rc.1.metadata with
    | .error e => (.error e, rc.2)
    | .ok s => (.ok (some (rc.1.response, s)), rc.2)

/-! ## Helper notions used by the theorem statements -/

/-- Total dictionary lookup with a default: the value stored under `k`, or
`d` when the receiver is not a dictionary or lacks the key.  Used by the
specification-side predicates. -/
def dGetD (v : PyVal) (k : String) (d : PyVal) : PyVal :=
  match v with
  | .dict kvs => (((kvs.find? (fun kv => kv.1 = k)).map (fun kv => kv.2)).getD d)
  | _ => d

/-- Is the value a dictionary? -/
def isDict : PyVal → Bool
  | .dict _ => true
  | _ => false

/-- Does `", ".join` succeed on the value? -/
def joinOK (v : PyVal) : Bool :=
  match pyJoinComma v with
  | .ok _ => true
  | .error _ => false

/-- A variant record on which `process_myvariant_result` performs only
dictionary accesses: the record and its `cadd`, `cadd.gene` and `dbsnp`
sub-objects (where present) are dictionaries. -/
def myvariantRecOK (r : PyVal) : Bool :=
  isDict r &&
  isDict (dGetD r "cadd" (.dict [])) &&
  isDict (dGetD (dGetD r "cadd" (.dict [])) "gene" (.dict [])) &&
  isDict (dGetD r "dbsnp" (.dict []))

/-- Following the spec's words: at least one of the fields variant name,
affected gene, consequence, CADD score, rsid is present in the record, a
CADD score of `0` counting as present (the score is compared against `None`,
the other four against Python truthiness). -/
def specVariantPresent (r : PyVal) : Bool :=
  pyTruthy (dGetD r "_id" .none) ||
  pyTruthy (dGetD (dGetD (dGetD r "cadd" (.dict [])) "gene" (.dict [])) "genename" .none) ||
  pyTruthy (dGetD (dGetD r "cadd" (.dict [])) "consequence" .none) ||
  !pyIsNone (dGetD (dGetD r "cadd" (.dict [])) "phred" .none) ||
  pyTruthy (dGetD (dGetD r "dbsnp" (.dict [])) "rsid" .none)

theorem pyGetD_of_isDict {v : PyVal} (h : isDict v = true) (k : String) (d : PyVal) :
    pyGetD v k d = .ok (dGetD v k d) := by
  cases v <;> simp_all [isDict, pyGetD, dGetD]

theorem str_append_eq_empty_iff (s t : String) :
    s ++ t = "" ↔ s = "" ∧ t = "" := by
  constructor
  · intro h
    have hd : s.data ++ t.data = [] := by
      have : (s ++ t).data = ("" : String).data := by rw [h]
      simpa [String.data_append] using this
    rcases List.append_eq_nil.mp hd with ⟨hs, ht⟩
    exact ⟨by cases s; simp_all, by cases t; simp_all⟩
  · rintro ⟨hs, ht⟩
    rw [hs, ht]
    rfl

theorem str_prefixed_ne_empty (p x : String) (hp : p ≠ "") : p ++ x ≠ "" := by
  intro h
  exact hp ((str_append_eq_empty_iff p x).mp h).1

theorem mem_dropWhile_of_mem {α : Type} {p : α → Bool} {c : α} :
    ∀ {l : List α}, c ∈ l → p c = false → c ∈ l.dropWhile p
  | [], h, _ => by cases h
  | a :: l, h, hc => by
    by_cases ha : p a = true
    · rcases List.mem_cons.mp h with rfl | h
      · rw [hc] at ha
        cases ha
      · rw [List.dropWhile_cons_of_pos ha]
        exact mem_dropWhile_of_mem h hc
    · rw [List.dropWhile_cons_of_neg ha]
      exact h

theorem stripChars_ne_nil {l : List Char} {c : Char} (hm : c ∈ l)
    (hw : c.isWhitespace = false) : stripChars l ≠ [] := by
  intro h
  have h1 : c ∈ l.dropWhile Char.isWhitespace := mem_dropWhile_of_mem hm hw
  have h2 : c ∈ (l.dropWhile Char.isWhitespace).reverse := List.mem_reverse.mpr h1
  have h3 : c ∈ (l.dropWhile Char.isWhitespace).reverse.dropWhile Char.isWhitespace :=
    mem_dropWhile_of_mem h2 hw
  have h4 : c ∈ stripChars l := List.mem_reverse.mpr h3
  rw [h] at h4
  cases h4

theorem pyStrip_ne_empty {s : String} {c : Char} (hm : c ∈ s.data)
    (hw : c.isWhitespace = false) : pyStrip s ≠ "" := by
  intro h
  have : stripChars s.data = [] := by
    have := congrArg String.data h
    simpa [pyStrip] using this
  exact stripChars_ne_nil hm hw this

theorem cacheGet_cacheAppend_same (c : Cache) (k v : String) :
    cacheGet (cacheAppend c k v) k = cacheGet c k ++ [v] := by
  induction c with
  | nil => simp [cacheGet, cacheAppend]
  | cons kv c ih =>
    by_cases hk : kv.1 = k
    · simp [cacheGet, cacheAppend, List.find?, hk]
    · have h2 : (kv.1 = k) = False := by simp [hk]
      by_cases hrest : (c.find? (fun kv => kv.1 = k)).isSome
      · have := ih
        simp only [cacheGet, cacheAppend, List.find?_cons, h2, hrest] at this ⊢
        simpa [cacheAppend, hrest, decide_eq_true_eq, hk] using this
      · have := ih
        simp only [cacheGet, cacheAppend, List.find?_cons, h2, hrest] at this ⊢
        simpa [cacheAppend, hrest, decide_eq_true_eq, hk] using this

/-! ## Claim theorems -/

/-- C1: for every session state, saving the state dictionary and loading it
back yields a state whose task-queue order, cache contents, task counter
(and all other state fields) are identical to the pre-serialization state,
with the reload counter incremented by exactly one. -/
theorem save_then_load_roundtrip (st : SessionState) :
    load_state (save_state st) = .ok { st with reload_count := st.reload_count + 1 } :=
  rfl

/-- C2: the code does not satisfy the claim — for a MYGENE-tagged task whose
generated code raises during execution, `handle_python_result` does not
catch the failure and return `None`: `execute_python` yields `None`, the
MYGENE branch runs `process_mygene_result(None)` *before* the
`executed_result is None` check, and `None.get("name")` raises
`AttributeError`, so the failure-annotated cache append at the end of the
function is never reached. -/
theorem mygene_failed_execution_raises :
    handle_python_result (fun _ => Option.none) (fun _ => .error "error")
      "query_term=1\n" [] "MYGENE: find genes in the BRCA1 pathway"
      ⟨[("task_1", ⟨Option.none, Option.none, []⟩)]⟩ "task_1"
      = .error .attributeError :=
  rfl

/-- C3: querying a knowledge store whose document store is empty returns
`None` ("no result") and performs no call to the underlying
retrieval/synthesis service, for every query text, response mode, `top_k`
and query style. -/
theorem query_knowledge_base_empty_store
    (engineQ listQ : String → QueryResp) (index : LlamaIndex)
    (query response_mode : String) (top_k : Nat) (list_index : Bool)
    (h : index.docs = []) :
    query_knowledge_base engineQ listQ index query response_mode top_k list_index
      = (.ok Option.none, []) := by
  simp [query_knowledge_base, h]

/-- Witness for C3 at a concrete empty index. -/
theorem query_knowledge_base_empty_store_witness :
    query_knowledge_base (fun q => ⟨q, .none⟩) (fun q => ⟨q, .none⟩) ⟨[]⟩
      "Give a brief high level summary of all the data." "tree_summarize" 50 false
      = (.ok Option.none, []) :=
  query_knowledge_base_empty_store _ _ _ _ _ _ _ rfl

/-- C4 counterexample: the processors are not exception-free — the variant
and gene processors raise `AttributeError` on a record that is not a
dictionary (here the integer `42`) instead of degrading to the raw input,
and the literature processor raises on a parsed article whose `Journal`
element has no `Title` child. -/
theorem process_myvariant_raises_on_nondict :
    process_myvariant_result (.int 42) = .error .attributeError ∧
    process_mygene_result (.int 42) = .error .attributeError ∧
    process_pubmed_result
      (fun _ => some (Xml.elem "PubmedArticleSet" [] Option.none
        [Xml.elem "PubmedArticle" [] Option.none
          [Xml.elem "Journal" [] Option.none []]]))
      (.str "payload") = .error .attributeError :=
  ⟨rfl, rfl, rfl⟩

/-- The document body `process_myvariant_result` builds for a
dictionary-like record, written with total lookups: the five conditional
lines in source order. -/
def variantBody (r : PyVal) : String :=
  (if pyTruthy (dGetD r "_id" .none) then
    "Variant Name: " ++ pyStr (dGetD r "_id" .none) ++ "\n" else "") ++
  (if pyTruthy (dGetD (dGetD (dGetD r "cadd" (.dict [])) "gene" (.dict [])) "genename" .none) then
    "Gene Affected: " ++
      pyStr (dGetD (dGetD (dGetD r "cadd" (.dict [])) "gene" (.dict [])) "genename" .none) ++ "\n"
  else "") ++
  (if pyTruthy (dGetD (dGetD r "cadd" (.dict [])) "consequence" .none) then
    "Consequence: " ++ pyStr (dGetD (dGetD r "cadd" (.dict [])) "consequence" .none) ++ "\n"
  else "") ++
  (if !pyIsNone (dGetD (dGetD r "cadd" (.dict [])) "phred" .none) then
    "CADD Score: " ++ pyStr (dGetD (dGetD r "cadd" (.dict [])) "phred" .none) ++ "\n"
  else "") ++
  (if pyTruthy (dGetD (dGetD r "dbsnp" (.dict [])) "rsid" .none) then
    "rsID: " ++ pyStr (dGetD (dGetD r "dbsnp" (.dict [])) "rsid" .none) ++ "\n"
  else "")

theorem process_myvariant_one_ok {r : PyVal} (h : myvariantRecOK r = true) :
    process_myvariant_one r =
      .ok (.tuple [.str (variantBody r), .dict [("citation_data", .str "")]]) := by
  rw [myvariantRecOK, Bool.and_eq_true, Bool.and_eq_true, Bool.and_eq_true] at h
  obtain ⟨⟨⟨h1, h2⟩, h3⟩, h4⟩ := h
  simp only [process_myvariant_one, pyGet, pyGetD_of_isDict h1, pyGetD_of_isDict h2,
    pyGetD_of_isDict h3, pyGetD_of_isDict h4, bind, Except.bind, pure, Except.pure,
    variantBody]
  rfl

theorem myvariant_fold_ok (rs : List PyVal) (h : ∀ r ∈ rs, myvariantRecOK r = true) :
    ∀ acc : List PyVal,
      ∃ newds,
        rs.foldlM
          (fun acc r => do
            let d ← process_myvariant_one r
            pure (acc ++ [d])) acc = .ok (acc ++ newds) ∧
        newds.length = rs.length ∧
        ∀ d ∈ newds, ∃ body cit,
          d = PyVal.tuple [.str body, .dict [("citation_data", .str cit)]] := by
  induction rs with
  | nil =>
    intro acc
    exact ⟨[], by simp [pure, Except.pure], rfl, by intro d hd; cases hd⟩
  | cons r rs ih =>
    intro acc
    have hr := process_myvariant_one_ok (h r (by simp))
    rcases ih (fun r hr => h r (by simp [hr])) (acc ++ [PyVal.tuple
      [.str (variantBody r), .dict [("citation_data", .str "")]]]) with ⟨newds, h1, h2, h3⟩
    refine ⟨PyVal.tuple [.str (variantBody r), .dict [("citation_data", .str "")]] :: newds,
      ?_, by simp [h2], ?_⟩
    · rw [List.foldlM_cons, hr]
      simpa [List.append_assoc] using h1
    · intro d hd
      rcases List.mem_cons.mp hd with rfl | hd
      · exact ⟨variantBody r, "", rfl⟩
      · exact h3 d hd

/-- C5 counterexample: the embedding call is not wrapped in the retry
policy — when the first outcome of the underlying embedding call is a
rate-limit error, `get_ada_embedding` propagates it immediately, while the
backoff policy used for the completion calls would have retried and
succeeded on the same outcome stream. -/
theorem ada_embedding_rate_limit_propagates :
    get_ada_embedding (fun _ => 1)
        (fun _ => [.error .rateLimitError, .ok [0]]) "BRCA1"
      = some (.error .rateLimitError) ∧
    backoff_run gpt_retry_errors
        [Except.error OpenAIErr.rateLimitError, Except.ok ([0] : List Int)]
      = some (.ok [0]) :=
  ⟨rfl, rfl⟩

/-- C5 (amended): the completion and chat-completion calls are wrapped in an
exponential-backoff retry policy with delay capped at 50, retrying exactly
on the rate-limit, generic-API-error, connection, service-unavailability and
timeout classes, while any other failure class propagates immediately; the
embedding call, per the counterexample, carries no retry policy. -/
theorem retry_policy_amended :
    (∀ e : OpenAIErr, gpt_retry_errors e = true ↔
        e = .rateLimitError ∨ e = .apiError ∨ e = .apiConnectionError ∨
        e = .serviceUnavailableError ∨ e = .timeout) ∧
    (∀ n : Nat, backoff_expo 50 n ≤ 50) ∧
    (∀ (e : OpenAIErr) (rest : List (Except OpenAIErr String)),
      gpt_retry_errors e = false →
      get_gpt_completion (.error e :: rest) = some (.error e) ∧
      get_gpt_chat_completion (.error e :: rest) = some (.error e)) ∧
    (∀ (e : OpenAIErr) (rest : List (Except OpenAIErr String)),
      gpt_retry_errors e = true →
      get_gpt_completion (.error e :: rest) = get_gpt_completion rest ∧
      get_gpt_chat_completion (.error e :: rest) = get_gpt_chat_completion rest) := by
  refine ⟨?_, ?_, ?_, ?_⟩
  · intro e
    cases e <;> simp [gpt_retry_errors]
  · intro n
    exact min_le_right _ _
  · intro e rest h
    constructor <;> simp [get_gpt_completion, get_gpt_chat_completion, backoff_run, h]
  · intro e rest h
    constructor <;> simp [get_gpt_completion, get_gpt_chat_completion, backoff_run, h]

/-- Witness for C5 (amended) at concrete errors and attempt streams. -/
theorem retry_policy_amended_witness :
    gpt_retry_errors .rateLimitError = true ∧
    backoff_expo 50 10 ≤ 50 ∧
    get_gpt_completion [.error .invalidRequestError, .ok "r"]
      = some (.error .invalidRequestError) ∧
    get_gpt_completion [.error .rateLimitError, .ok "r"] = some (.ok "r") := by
  have h := retry_policy_amended
  refine ⟨(h.1 .rateLimitError).mpr (Or.inl rfl), h.2.1 10,
    (h.2.2.1 .invalidRequestError [.ok "r"] rfl).1, ?_⟩
  rw [(h.2.2.2 .rateLimitError [.ok "r"] rfl).1]
  rfl

/-- C6 counterexample: a variant record with none of the five fields present
still produces a document (an empty-bodied pair) — the append in
`process_myvariant_result` is unconditional, refuting the "if and only if"
of the claim. -/
theorem variant_fieldless_record_still_documented :
    process_myvariant_result (.dict [])
        = .ok [.tuple [.str "", .dict [("citation_data", .str "")]]] ∧
      specVariantPresent (.dict []) = false :=
  ⟨rfl, rfl⟩

/-- C6 (amended): a (body, citation) pair is produced for *every* variant
record, and the pair's body text is non-empty if and only if at least one of
the fields variant name, affected gene, consequence, CADD score, rsid is
present in the record — a CADD score of `0` counting as present. -/
theorem variant_doc_body_nonempty_iff_present {r : PyVal}
    (h : myvariantRecOK r = true) :
    process_myvariant_one r =
      .ok (.tuple [.str (variantBody r), .dict [("citation_data", .str "")]]) ∧
    (variantBody r ≠ "" ↔ specVariantPresent r = true) := by
  refine ⟨process_myvariant_one_ok h, ?_⟩
  cases hc1 : pyTruthy (dGetD r "_id" PyVal.none) <;>
    cases hc2 : pyTruthy
      (dGetD (dGetD (dGetD r "cadd" (.dict [])) "gene" (.dict [])) "genename" PyVal.none) <;>
    cases hc3 : pyTruthy (dGetD (dGetD r "cadd" (.dict [])) "consequence" PyVal.none) <;>
    cases hc4 : pyIsNone (dGetD (dGetD r "cadd" (.dict [])) "phred" PyVal.none) <;>
    cases hc5 : pyTruthy (dGetD (dGetD r "dbsnp" (.dict [])) "rsid" PyVal.none) <;>
    simp [variantBody, specVariantPresent, hc1, hc2, hc3, hc4, hc5,
      str_append_eq_empty_iff]

/-- Witness for C6 (amended) at a record carrying only a variant name. -/
theorem variant_doc_body_nonempty_iff_present_witness :
    myvariantRecOK (.dict [("_id", .str "chr7:g.140453136A>T")]) = true ∧
    (process_myvariant_one (.dict [("_id", .str "chr7:g.140453136A>T")]) =
        .ok (.tuple [.str (variantBody (.dict [("_id", .str "chr7:g.140453136A>T")])),
          .dict [("citation_data", .str "")]]) ∧
      (variantBody (.dict [("_id", .str "chr7:g.140453136A>T")]) ≠ "" ↔
        specVariantPresent (.dict [("_id", .str "chr7:g.140453136A>T")]) = true)) :=
  ⟨rfl, variant_doc_body_nonempty_iff_present rfl⟩

/-- C10: for a PUBMED-tagged task (matching no other tool tag) whose
generated code raises during execution, `handle_python_result` returns
`None` without raising and the PUBMED cache gains exactly two records in
order: first the success-formatted record, then the record annotated that
the call did not run successfully. -/
theorem pubmed_failed_execution_two_cache_records
    (parse : String → Option Xml) (exec : String → Except String (Option PyVal))
    (result : String) (cache : Cache) (task : String)
    (ds : DocStore) (key : String) (e : String)
    (hp : strContainsSub task "PUBMED" = true)
    (hg : strContainsSub task "MYGENE" = false)
    (hv : strContainsSub task "MYVARIANT" = false)
    (hkey : (ds.tasks.find? (fun kv => kv.1 = key)).isSome = true)
    (hexec : exec (build_tool_code (toolTag task) result) = .error e) :
    ∃ ds', handle_python_result parse exec result cache task ds key
        = .ok (cacheAppend (cacheAppend cache "PUBMED" ("---\n" ++ result ++ "---\n"))
            "PUBMED" ("---\nNote: This call did not run succesfully\n" ++ result ++ "---\n"),
          ds', Option.none) ∧
      cacheGet (cacheAppend (cacheAppend cache "PUBMED" ("---\n" ++ result ++ "---\n"))
            "PUBMED" ("---\nNote: This call did not run succesfully\n" ++ result ++ "---\n"))
          "PUBMED"
        = cacheGet cache "PUBMED" ++
          ["---\n" ++ result ++ "---\n",
           "---\nNote: This call did not run succesfully\n" ++ result ++ "---\n"] := by
  refine ⟨⟨ds.tasks.map (fun kv =>
      if kv.1 = key then (kv.1, { kv.2 with result_code := some result }) else kv)⟩, ?_, ?_⟩
  · simp only [handle_python_result, docStoreSetCode, hkey, if_true, hexec,
      execute_python, bind, Except.bind, pure, Except.pure, hp, hg, hv,
      Bool.false_eq_true, if_false, pyIsNone, pyTruthy, Bool.not_true, Bool.not_false,
      Bool.false_and, Bool.and_false, process_pubmed_result, pyParseXml, pyWrapList]
  · rw [cacheGet_cacheAppend_same, cacheGet_cacheAppend_same, List.append_assoc]
    rfl

/-- Witness for C10 at a concrete PUBMED task whose execution raises. -/
theorem pubmed_failed_execution_two_cache_records_witness :
    ∃ ds', handle_python_result (fun _ => Option.none) (fun _ => .error "boom")
        "query_term=1\n" [] "PUBMED: BRCA1 articles"
        ⟨[("task_1", ⟨Option.none, Option.none, []⟩)]⟩ "task_1"
        = .ok (cacheAppend (cacheAppend [] "PUBMED" ("---\n" ++ "query_term=1\n" ++ "---\n"))
            "PUBMED" ("---\nNote: This call did not run succesfully\n" ++ "query_term=1\n" ++ "---\n"),
          ds', Option.none) ∧
      cacheGet (cacheAppend (cacheAppend [] "PUBMED" ("---\n" ++ "query_term=1\n" ++ "---\n"))
            "PUBMED" ("---\nNote: This call did not run succesfully\n" ++ "query_term=1\n" ++ "---\n"))
          "PUBMED"
        = cacheGet [] "PUBMED" ++
          ["---\n" ++ "query_term=1\n" ++ "---\n",
           "---\nNote: This call did not run succesfully\n" ++ "query_term=1\n" ++ "---\n"] :=
  pubmed_failed_execution_two_cache_records (fun _ => Option.none) (fun _ => .error "boom")
    "query_term=1\n" [] "PUBMED: BRCA1 articles"
    ⟨[("task_1", ⟨Option.none, Option.none, []⟩)]⟩ "task_1" "boom" rfl rfl rfl rfl rfl

/-- The `"results"` list of a task's doc-store entry. -/
def dsResults (ds : DocStore) (key : String) : List ResultRec :=
  ((ds.tasks.find? (fun kv => kv.1 = key)).map (fun kv => kv.2.results)).getD []

theorem find?_append_results (key : String) (rec : ResultRec) :
    ∀ ts : List (String × TaskDoc),
    ((ts.map (fun kv => if kv.1 = key then
        (kv.1, { kv.2 with results := kv.2.results ++ [rec] }) else kv)).find?
      (fun kv => kv.1 = key))
      = (ts.find? (fun kv => kv.1 = key)).map
          (fun kv => (kv.1, { kv.2 with results := kv.2.results ++ [rec] }))
  | [] => by simp
  | kv :: ts => by
    by_cases hk : kv.1 = key
    · simp [List.find?_cons, hk]
    · simp [List.find?_cons, hk, find?_append_results key rec ts]

theorem docStoreAppendResult_ok {ds : DocStore} {key : String}
    (hkey : (ds.tasks.find? (fun kv => kv.1 = key)).isSome = true) (rec : ResultRec) :
    ∃ ds', docStoreAppendResult ds key rec = .ok ds' ∧
      (ds'.tasks.find? (fun kv => kv.1 = key)).isSome = true ∧
      dsResults ds' key = dsResults ds key ++ [rec] := by
  obtain ⟨kv0, hkv0⟩ := Option.isSome_iff_exists.mp hkey
  refine ⟨⟨ds.tasks.map (fun kv => if kv.1 = key then
    (kv.1, { kv.2 with results := kv.2.results ++ [rec] }) else kv)⟩,
    by simp [docStoreAppendResult, hkey], ?_, ?_⟩
  · show (List.find? _ (List.map _ _)).isSome = true
    rw [find?_append_results]
    simp [hkv0]
  · show ((List.find? _ (List.map _ _)).map _).getD [] = _
    rw [find?_append_results]
    simp [dsResults, hkv0]

theorem pyTake_length_le (s : String) (n : Nat) : (pyTake s n).length ≤ n := by
  show (s.data.take n).length ≤ n
  rw [List.length_take]
  exact Nat.min_le_left _ _

theorem handle_results_go_spec (embed : String → List Int) (cutoff counter : Nat)
    (key : String) :
    ∀ (rs : List PyVal) (i : Nat) (index : List InsertedDoc) (ds : DocStore),
      (ds.tasks.find? (fun kv => kv.1 = key)).isSome = true →
      (∀ r ∈ rs, ∃ b m, pyIndex r 0 = .ok b ∧ pyIndex r 1 = .ok m) →
      ∃ docs recs ds',
        handle_results_go embed cutoff counter key i rs index ds
          = .ok (index ++ docs, ds') ∧
        dsResults ds' key = dsResults ds key ++ recs ∧
        docs.length = rs.length ∧ recs.length = rs.length ∧
        List.Forall₂ (fun r (d : InsertedDoc) => ∀ b, pyIndex r 0 = .ok b →
          d.text = pyTake (pyStr b) cutoff) rs docs ∧
        List.Forall₂ (fun r (rec : ResultRec) => ∀ b, pyIndex r 0 = .ok b →
          rec.output = pyTake (pyStr b) cutoff) rs recs ∧
        (∀ d ∈ docs, d.text.length ≤ cutoff) ∧
        (∀ rec ∈ recs, rec.output.length ≤ cutoff)
  | [], i, index, ds => by
    intro hkey _
    exact ⟨[], [], ds, by simp [handle_results_go], by simp, rfl, rfl, .nil, .nil,
      fun d hd => absurd hd (List.not_mem_nil d),
      fun rec hr => absurd hr (List.not_mem_nil rec)⟩
  | r :: rest, i, index, ds => by
    intro hkey hall
    obtain ⟨b, m, hb, hm⟩ := hall r (by simp)
    obtain ⟨ds1, hds1, hkey1, hres1⟩ := docStoreAppendResult_ok hkey
      ⟨counter, embed (pyTake (pyStr b) cutoff), pyTake (pyStr b) cutoff, m⟩
    obtain ⟨docs0, recs0, ds', hgo, hres, hl1, hl2, hf1, hf2, hb1, hb2⟩ :=
      handle_results_go_spec embed cutoff counter key rest (i + 1)
        (insert_doc_llama_index embed index
          ("doc_id_" ++ toString counter ++ "_" ++ toString i)
          (pyTake (pyStr b) cutoff) m (embed (pyTake (pyStr b) cutoff)))
        ds1 hkey1 (fun r hr => hall r (by simp [hr]))
    refine ⟨(⟨"doc_id_" ++ toString counter ++ "_" ++ toString i,
        pyTake (pyStr b) cutoff, m,
        (if (embed (pyTake (pyStr b) cutoff)).isEmpty then
            embed (pyTake (pyStr b) cutoff)
          else embed (pyTake (pyStr b) cutoff)),
        ["citation_data"], ["citation_data"]⟩ : InsertedDoc) :: docs0,
      (⟨counter, embed (pyTake (pyStr b) cutoff),
        pyTake (pyStr b) cutoff, m⟩ : ResultRec) :: recs0, ds', ?_, ?_,
      by simp [hl1], by simp [hl2], ?_, ?_, ?_, ?_⟩
    · simp only [handle_results_go, hb, hm, bind, Except.bind, hds1]
      rw [hgo]
      simp [insert_doc_llama_index, List.append_assoc]
    · rw [hres, hres1, List.append_assoc]
      rfl
    · exact List.Forall₂.cons (fun b' hb' => by
        rw [hb] at hb'
        cases hb'
        rfl) hf1
    · exact List.Forall₂.cons (fun b' hb' => by
        rw [hb] at hb'
        cases hb'
        rfl) hf2
    · intro d hd
      rcases List.mem_cons.mp hd with rfl | hd
      · exact pyTake_length_le _ _
      · exact hb1 d hd
    · intro rec hr
      rcases List.mem_cons.mp hr with rfl | hr
      · exact pyTake_length_le _ _
      · exact hb2 rec hr

/-- C9: for every processed result list handed to `handle_results` (and any
cutoff), each stored document's text — both the text of the document
inserted into the index and the `output` field of the doc-store record —
equals the first `RESULT_CUTOFF` characters of the stringified result body,
and in particular is never longer than `RESULT_CUTOFF`. -/
theorem handle_results_truncates_to_cutoff
    (embed : String → List Int) (result : List PyVal) (index : List InsertedDoc)
    (ds : DocStore) (key : String) (counter cutoff : Nat)
    (hkey : (ds.tasks.find? (fun kv => kv.1 = key)).isSome = true)
    (hall : ∀ r ∈ result, ∃ b m, pyIndex r 0 = .ok b ∧ pyIndex r 1 = .ok m) :
    ∃ docs recs ds',
      handle_results embed result index ds key counter cutoff
        = .ok (index ++ docs, ds') ∧
      dsResults ds' key = dsResults ds key ++ recs ∧
      docs.length = result.length ∧ recs.length = result.length ∧
      List.Forall₂ (fun r (d : InsertedDoc) => ∀ b, pyIndex r 0 = .ok b →
        d.text = pyTake (pyStr b) cutoff) result docs ∧
      List.Forall₂ (fun r (rec : ResultRec) => ∀ b, pyIndex r 0 = .ok b →
        rec.output = pyTake (pyStr b) cutoff) result recs ∧
      (∀ d ∈ docs, d.text.length ≤ cutoff) ∧
      (∀ rec ∈ recs, rec.output.length ≤ cutoff) :=
  handle_results_go_spec embed cutoff counter key result 0 index ds hkey hall

/-- Witness for C9 at one concrete oversized result and cutoff 5. -/
theorem handle_results_truncates_to_cutoff_witness :
    ∃ docs recs ds',
      handle_results (fun _ => [1]) [.tuple [.str "hello world", .dict []]]
          [] ⟨[("task_1", ⟨Option.none, Option.none, []⟩)]⟩ "task_1" 3 5
        = .ok ([] ++ docs, ds') ∧
      dsResults ds' "task_1"
        = dsResults ⟨[("task_1", ⟨Option.none, Option.none, []⟩)]⟩ "task_1" ++ recs ∧
      docs.length = [PyVal.tuple [.str "hello world", .dict []]].length ∧
      recs.length = [PyVal.tuple [.str "hello world", .dict []]].length ∧
      List.Forall₂ (fun r (d : InsertedDoc) => ∀ b, pyIndex r 0 = .ok b →
        d.text = pyTake (pyStr b) 5) [PyVal.tuple [.str "hello world", .dict []]] docs ∧
      List.Forall₂ (fun r (rec : ResultRec) => ∀ b, pyIndex r 0 = .ok b →
        rec.output = pyTake (pyStr b) 5) [PyVal.tuple [.str "hello world", .dict []]] recs ∧
      (∀ d ∈ docs, d.text.length ≤ 5) ∧
      (∀ rec ∈ recs, rec.output.length ≤ 5) :=
  handle_results_truncates_to_cutoff (fun _ => [1])
    [.tuple [.str "hello world", .dict []]] []
    ⟨[("task_1", ⟨Option.none, Option.none, []⟩)]⟩ "task_1" 3 5 rfl
    (by
      intro r hr
      rcases List.mem_singleton.mp hr with rfl
      exact ⟨.str "hello world", .dict [], rfl, rfl⟩)

theorem joinOK_ex {v : PyVal} (h : joinOK v = true) : ∃ s, pyJoinComma v = .ok s := by
  unfold joinOK at h
  rcases hj : pyJoinComma v with e | s
  · rw [hj] at h
    cases h
  · exact ⟨s, rfl⟩

theorem mygene_summary_fields_ok {g rna : PyVal} (hg : joinOK g = true)
    (hr : joinOK rna = true) (name symbol taxid type_of_gene pos : PyVal) :
    ∃ out, mygene_summary_fields name g rna symbol taxid type_of_gene pos = .ok out := by
  rcases joinOK_ex hg with ⟨jg, hjg⟩
  rcases joinOK_ex hr with ⟨jr, hjr⟩
  unfold mygene_summary_fields
  cases hgt : pyTruthy g <;> cases hrt : pyTruthy rna <;>
    simp [hjg, hjr, bind, Except.bind, pure, Except.pure]

theorem mygene_pathway_fields_ok {g rna : PyVal} (hg : joinOK g = true)
    (hr : joinOK rna = true) (name symbol taxid type_of_gene pos : PyVal) :
    ∃ out, mygene_pathway_fields name symbol taxid type_of_gene g rna pos = .ok out := by
  rcases joinOK_ex hg with ⟨jg, hjg⟩
  rcases joinOK_ex hr with ⟨jr, hjr⟩
  unfold mygene_pathway_fields
  cases hgt : pyTruthy g <;> cases hrt : pyTruthy rna <;>
    simp [hjg, hjr, bind, Except.bind, pure, Except.pure]

theorem mygene_item_line_ok {item : PyVal} (h : isDict item = true) (out : String) :
    ∃ s, mygene_item_line out item = .ok s :=
  ⟨out ++ " ID: " ++ pyStr (dGetD item "id" (.str "")) ++ " Name: " ++
      pyStr (dGetD item "name" (.str "")),
    by simp only [mygene_item_line, pyGetD_of_isDict h, bind, Except.bind, pure,
      Except.pure]⟩

theorem mygene_items_fold_ok :
    ∀ (items : List PyVal), items.all isDict = true →
    ∀ acc : String, ∃ s, items.foldlM mygene_item_line acc = .ok s
  | [], _, acc => ⟨acc, rfl⟩
  | item :: items, h, acc => by
    rw [List.all_cons, Bool.and_eq_true] at h
    rcases mygene_item_line_ok h.1 acc with ⟨s1, hs1⟩
    rcases mygene_items_fold_ok items h.2 s1 with ⟨s2, hs2⟩
    exact ⟨s2, by rw [List.foldlM_cons, hs1]; exact hs2⟩

theorem mygene_listing_fold_ok :
    ∀ (els : List (String × List PyVal)), (∀ kv ∈ els, kv.2.all isDict = true) →
    ∀ acc : String, ∃ s, els.foldlM
      (fun out kv => kv.2.foldlM mygene_item_line (out ++ "\n" ++ kv.1 ++ ":\n")) acc
      = .ok s
  | [], _, acc => ⟨acc, rfl⟩
  | kv :: els, h, acc => by
    rcases mygene_items_fold_ok kv.2 (h kv (by simp)) (acc ++ "\n" ++ kv.1 ++ ":\n")
      with ⟨s1, hs1⟩
    rcases mygene_listing_fold_ok els (fun kv hkv => h kv (by simp [hkv])) s1
      with ⟨s2, hs2⟩
    exact ⟨s2, by rw [List.foldlM_cons, hs1]; exact hs2⟩

theorem mygene_pathway_listing_ok {els : List (String × List PyVal)}
    (h : ∀ kv ∈ els, kv.2.all isDict = true) :
    ∃ s, mygene_pathway_listing els = .ok s :=
  mygene_listing_fold_ok els h ""

theorem normListVal_of_isDict {v : PyVal} (h : isDict v = true) :
    normListVal v = [v] := by
  cases v <;> simp_all [normListVal, isDict]

theorem str_data_append (s t : String) : (s ++ t).data = s.data ++ t.data := by
  rcases s with ⟨a⟩
  rcases t with ⟨b⟩
  rfl

theorem mem_str_append_left {c : Char} (s t : String) (h : c ∈ s.data) :
    c ∈ (s ++ t).data := by
  rw [str_data_append]
  exact List.mem_append_left _ h

theorem mem_str_append_right {c : Char} (s t : String) (h : c ∈ t.data) :
    c ∈ (s ++ t).data := by
  rw [str_data_append]
  exact List.mem_append_right _ h


theorem mygene_output_summary_of_summary {summary g rna : PyVal}
    (hsum : pyTruthy summary = true) (hg : joinOK g = true) (hr : joinOK rna = true)
    (name symbol taxid type_of_gene pos generif : PyVal) :
    ∃ out, mygene_output_summary name g rna symbol taxid type_of_gene pos summary generif
      = .ok (out ++ "Summary of " ++ pyStr name ++ ": " ++ pyStr summary ++ "\n", "") := by
  rcases mygene_summary_fields_ok hg hr name symbol taxid type_of_gene pos with ⟨out, hout⟩
  exact ⟨out, by simp only [mygene_output_summary, hout, bind, Except.bind, hsum,
    if_true, pure, Except.pure]⟩

theorem mygene_output_pathway_ok {g rna : PyVal} (hg : joinOK g = true)
    (hr : joinOK rna = true) {els : List (String × List PyVal)}
    (hels : ∀ kv ∈ els, kv.2.all isDict = true)
    (name symbol taxid type_of_gene pos : PyVal) :
    ∃ out lst, mygene_output_pathway name symbol taxid type_of_gene g rna pos els
      = .ok (out ++ "PATHWAYS\n\n" ++ lst) := by
  rcases mygene_pathway_fields_ok hg hr name symbol taxid type_of_gene pos with ⟨out, hout⟩
  rcases mygene_pathway_listing_ok hels with ⟨lst, hlst⟩
  exact ⟨out, lst, by simp only [mygene_output_pathway, hout, hlst, bind, Except.bind,
    pure, Except.pure]⟩

/-- C8: for every gene record whose `pathway.kegg` entry is a singleton bare
object (a dict, not a list) and whose summary field is populated (the record
being dictionary-shaped so the processor's accesses succeed),
`process_mygene_result` emits exactly two documents — summary then pathway —
and the pathway document's kegg listing contains exactly one entry. -/
theorem mygene_singleton_kegg_two_docs (r : PyVal)
    (h1 : isDict r = true)
    (h2 : isDict (dGetD r "refseq" (.dict [])) = true)
    (h3 : joinOK (dGetD (dGetD r "refseq" (.dict [])) "genomic" (.list [])) = true)
    (h4 : joinOK (dGetD (dGetD r "refseq" (.dict [])) "rna" (.list [])) = true)
    (h5 : pyTruthy (dGetD r "summary" PyVal.none) = true)
    (h6 : pyTruthy (dGetD r "pathway" PyVal.none) = true)
    (h7 : isDict (dGetD r "pathway" PyVal.none) = true)
    (h8 : isDict (dGetD (dGetD r "pathway" PyVal.none) "kegg" (.list [])) = true)
    (h9 : ∀ k ∈ (["kegg", "pid", "reactome", "wikipathways", "netpath",
        "biocarta"] : List String),
      (normListVal (dGetD (dGetD r "pathway" PyVal.none) k (.list []))).all isDict
        = true) :
    ∃ s p, process_mygene_result r
        = .ok [.tuple [.str s, .dict [("citation_data", .str "")]],
               .tuple [.str p, .dict [("citation_data", .str "")]]] ∧
      (normListVal (dGetD (dGetD r "pathway" PyVal.none) "kegg" (.list []))).length
        = 1 := by
  rcases mygene_output_summary_of_summary h5 h3 h4 (dGetD r "name" PyVal.none)
    (dGetD r "symbol" PyVal.none) (dGetD r "taxid" PyVal.none)
    (dGetD r "type_of_gene" PyVal.none) (dGetD r "genomic_pos_hg19" PyVal.none)
    (dGetD r "generif" PyVal.none) with ⟨outS, houtS⟩
  have hels : ∀ kv ∈ ([("kegg", normListVal (dGetD (dGetD r "pathway" PyVal.none) "kegg" (.list []))),
      ("pid", normListVal (dGetD (dGetD r "pathway" PyVal.none) "pid" (.list []))),
      ("reactome", normListVal (dGetD (dGetD r "pathway" PyVal.none) "reactome" (.list []))),
      ("wikipathways", normListVal (dGetD (dGetD r "pathway" PyVal.none) "wikipathways" (.list []))),
      ("netpath", normListVal (dGetD (dGetD r "pathway" PyVal.none) "netpath" (.list []))),
      ("biocarta", normListVal (dGetD (dGetD r "pathway" PyVal.none) "biocarta" (.list [])))] :
        List (String × List PyVal)),
      kv.2.all isDict = true := by
    intro kv hkv
    simp only [List.mem_cons, List.not_mem_nil, or_false] at hkv
    rcases hkv with rfl | rfl | rfl | rfl | rfl | rfl
    · exact h9 "kegg" (by simp)
    · exact h9 "pid" (by simp)
    · exact h9 "reactome" (by simp)
    · exact h9 "wikipathways" (by simp)
    · exact h9 "netpath" (by simp)
    · exact h9 "biocarta" (by simp)
  rcases mygene_output_pathway_ok h3 h4 hels (dGetD r "name" PyVal.none)
    (dGetD r "symbol" PyVal.none) (dGetD r "taxid" PyVal.none)
    (dGetD r "type_of_gene" PyVal.none) (dGetD r "genomic_pos_hg19" PyVal.none)
    with ⟨outP, lst, houtP⟩
  have hSne : pyStrip (outS ++ "Summary of " ++
      pyStr (dGetD r "name" PyVal.none) ++ ": " ++
      pyStr (dGetD r "summary" PyVal.none) ++ "\n") ≠ "" := by
    refine pyStrip_ne_empty (c := 'S') ?_ (by decide)
    refine mem_str_append_left _ _ (mem_str_append_left _ _
      (mem_str_append_left _ _ (mem_str_append_left _ _
        (mem_str_append_right _ _ ?_))))
    decide
  have hPne : pyStrip (outP ++ "PATHWAYS\n\n" ++ lst) ≠ "" := by
    refine pyStrip_ne_empty (c := 'P') ?_ (by decide)
    exact mem_str_append_left _ _ (mem_str_append_right _ _ (by decide))
  refine ⟨pyStrip (outS ++ "Summary of " ++ pyStr (dGetD r "name" PyVal.none) ++ ": " ++
      pyStr (dGetD r "summary" PyVal.none) ++ "\n"),
    pyStrip (outP ++ "PATHWAYS\n\n" ++ lst), ?_, ?_⟩
  · simp only [process_mygene_result]
    have hwrap : pyWrapList r = [r] := by
      cases r <;> simp_all [isDict, pyWrapList]
    rw [hwrap]
    simp only [List.foldlM_cons, List.foldlM_nil, bind, Except.bind, pure, Except.pure]
    simp only [process_mygene_one, pyGet, pyGetD_of_isDict h1, pyGetD_of_isDict h2,
      pyGetD_of_isDict h7, bind, Except.bind, pure, Except.pure, houtS, h6, if_true,
      houtP, hSne, if_pos, ne_eq, not_false_iff]
    simp [hSne, hPne]
  · rw [normListVal_of_isDict h8]
    rfl

/-- Witness for C8 at a concrete BRCA1-style record with a singleton kegg
object. -/
theorem mygene_singleton_kegg_two_docs_witness :
    ∃ s p, process_mygene_result
        (.dict [("name", .str "BRCA1 gene"), ("symbol", .str "BRCA1"),
          ("summary", .str "a tumor suppressor"),
          ("pathway", .dict [("kegg", .dict [("id", .str "hsa04151"),
            ("name", .str "PI3K-Akt signaling pathway")])])])
        = .ok [.tuple [.str s, .dict [("citation_data", .str "")]],
               .tuple [.str p, .dict [("citation_data", .str "")]]] ∧
      (normListVal (dGetD (dGetD
          (.dict [("name", .str "BRCA1 gene"), ("symbol", .str "BRCA1"),
            ("summary", .str "a tumor suppressor"),
            ("pathway", .dict [("kegg", .dict [("id", .str "hsa04151"),
              ("name", .str "PI3K-Akt signaling pathway")])])])
          "pathway" PyVal.none) "kegg" (.list []))).length = 1 :=
  mygene_singleton_kegg_two_docs
    (.dict [("name", .str "BRCA1 gene"), ("symbol", .str "BRCA1"),
      ("summary", .str "a tumor suppressor"),
      ("pathway", .dict [("kegg", .dict [("id", .str "hsa04151"),
        ("name", .str "PI3K-Akt signaling pathway")])])])
    rfl rfl rfl rfl rfl rfl rfl rfl
    (by
      intro k hk
      rcases List.mem_cons.mp hk with rfl | hk
      · rfl
      · rcases List.mem_cons.mp hk with rfl | hk
        · rfl
        · rcases List.mem_cons.mp hk with rfl | hk
          · rfl
          · rcases List.mem_cons.mp hk with rfl | hk
            · rfl
            · rcases List.mem_cons.mp hk with rfl | hk
              · rfl
              · rcases List.mem_cons.mp hk with rfl | hk
                · rfl
                · cases hk)

/-- Concatenation of rendered texts of a node list. -/
def concatTexts {α : Type} (g : α → String) : List α → String
  | [] => ""
  | x :: xs => g x ++ concatTexts g xs

/-- Following the claim's words: the combined title, abstract and DOI text
of an article node — the concatenated text contents of its `Title`,
`AbstractText`, and doi-typed `ELocationID` descendants. -/
def specCombinedText (article : Xml) : String :=
  concatTexts (fun t => t.text.getD "") (article.iter "Title") ++
  concatTexts (fun t => t.text.getD "") (article.iter "AbstractText") ++
  concatTexts (fun t => t.text.getD "")
    ((article.iter "ELocationID").filter (fun d => d.attr "EIdType" = some "doi"))

/-- Does the element carry non-empty text? -/
def textNonempty (n : Xml) : Bool :=
  match n.text with
  | some s => !s.isEmpty
  | Option.none => false

/-- A well-formed article node: every `Title` and `AbstractText` descendant
and every doi-typed `ELocationID` descendant carries non-empty text, and
every `Journal` descendant has a `Title` child. -/
def goodPubmedArticle (a : Xml) : Bool :=
  a.descendants.all (fun n =>
    (n.tag != "Title" || textNonempty n) &&
    (n.tag != "AbstractText" || textNonempty n) &&
    (n.tag != "Journal" || (n.findTag "Title").isSome) &&
    (!(n.tag == "ELocationID" && n.attr "EIdType" == some "doi") || textNonempty n))

/-- A well-formed article tree: every direct child of the root is a
well-formed article node. -/
def wellFormedArticleTree (root : Xml) : Bool :=
  root.children.all goodPubmedArticle

theorem self_mem_descendants (a : Xml) : a ∈ a.descendants := by
  rcases a with ⟨t, at_, s, c⟩
  rw [Xml.descendants]
  exact List.mem_cons_self _ _

mutual

theorem mem_desc_trans : ∀ (a : Xml) {x y : Xml},
    x ∈ a.descendants → y ∈ x.descendants → y ∈ a.descendants
  | .elem t at_ s c, x, y, hx, hy => by
    rw [Xml.descendants] at hx
    rcases List.mem_cons.mp hx with rfl | hx
    · exact hy
    · rw [Xml.descendants]
      exact List.mem_cons_of_mem _ (mem_descList_trans c hx hy)

theorem mem_descList_trans : ∀ (l : List Xml) {x y : Xml},
    x ∈ Xml.descendantsList l → y ∈ x.descendants → y ∈ Xml.descendantsList l
  | [], x, y, hx, _ => by
    rw [Xml.descendantsList] at hx
    cases hx
  | x0 :: xs, x, y, hx, hy => by
    rw [Xml.descendantsList] at hx ⊢
    rcases List.mem_append.mp hx with hx | hx
    · exact List.mem_append_left _ (mem_desc_trans x0 hx hy)
    · exact List.mem_append_right _ (mem_descList_trans xs hx hy)

end

theorem mem_descList_of_mem {x : Xml} : ∀ {l : List Xml}, x ∈ l →
    x ∈ Xml.descendantsList l
  | [], h => by cases h
  | x0 :: xs, h => by
    rw [Xml.descendantsList]
    rcases List.mem_cons.mp h with rfl | h
    · exact List.mem_append_left _ (self_mem_descendants x)
    · exact List.mem_append_right _ (mem_descList_of_mem h)

theorem mem_child_descendants {j t : Xml} (h : t ∈ j.children) :
    t ∈ j.descendants := by
  rcases j with ⟨tag, at_, s, c⟩
  rw [Xml.descendants]
  exact List.mem_cons_of_mem _ (mem_descList_of_mem h)

theorem mem_iter_iff {x a : Xml} {tag : String} :
    x ∈ a.iter tag ↔ x ∈ a.descendants ∧ x.tag = tag := by
  simp [Xml.iter, List.mem_filter]


theorem str_empty_append (s : String) : "" ++ s = s := by
  rcases s with ⟨l⟩
  rfl

theorem str_append_empty (s : String) : s ++ "" = s := by
  rcases s with ⟨l⟩
  show String.mk (l ++ []) = String.mk l
  rw [List.append_nil]

theorem foldl_text_append : ∀ (l : List Xml) (init : String),
    l.foldl (fun r t => r ++ textStr t.text ++ "\n") init
      = init ++ concatTexts (fun t => textStr t.text ++ "\n") l
  | [], init => by
    rw [List.foldl_nil, concatTexts, str_append_empty]
  | t :: ts, init => by
    rw [List.foldl_cons, foldl_text_append ts, concatTexts]
    simp [String.append_assoc]

theorem foldl_doi_append : ∀ (l : List Xml) (init : String),
    l.foldl (fun r d =>
        if d.attr "EIdType" = some "doi" then r ++ textStr d.text ++ "\n" else r) init
      = init ++ concatTexts (fun t => textStr t.text ++ "\n")
          (l.filter (fun d => d.attr "EIdType" = some "doi"))
  | [], init => by
    rw [List.foldl_nil, List.filter_nil, concatTexts, str_append_empty]
  | d :: ds, init => by
    by_cases hd : d.attr "EIdType" = some "doi"
    · rw [List.foldl_cons, if_pos hd, List.filter_cons_of_pos (by simpa using hd),
        foldl_doi_append ds, concatTexts]
      simp [String.append_assoc]
    · rw [List.foldl_cons, if_neg hd, List.filter_cons_of_neg (by simpa using hd),
        foldl_doi_append ds]

/-- The line the journal loop appends for a journal with a `Title` child. -/
def journalLine (j : Xml) : String :=
  match j.findTag "Title" with
  | some t => textStr t.text ++ "\n"
  | Option.none => ""

theorem journal_fold_ok : ∀ (js : List Xml),
    (∀ j ∈ js, (j.findTag "Title").isSome = true) → ∀ rc : String × String,
    ∃ cit, js.foldlM pubmed_journal_step rc
      = .ok (rc.1 ++ concatTexts journalLine js, cit)
  | [], _, rc => ⟨rc.2, by
      rw [List.foldlM_nil, concatTexts, str_append_empty]
      rfl⟩
  | j :: js, h, rc => by
    obtain ⟨t, ht⟩ := Option.isSome_iff_exists.mp (h j (by simp))
    obtain ⟨cit, hcit⟩ := journal_fold_ok js (fun j hj => h j (by simp [hj]))
      (rc.1 ++ textStr t.text ++ "\n", rc.2 ++ textStr t.text ++ "\n")
    refine ⟨cit, ?_⟩
    rw [List.foldlM_cons]
    show (pubmed_journal_step rc j) >>= _ = _
    rw [pubmed_journal_step, ht]
    show js.foldlM pubmed_journal_step _ = _
    rw [hcit, concatTexts, journalLine, ht]
    simp [String.append_assoc]

theorem concatTexts_eq_empty_iff {α : Type} {g : α → String} :
    ∀ {l : List α}, (∀ x ∈ l, g x ≠ "") → (concatTexts g l = "" ↔ l = [])
  | [], _ => by simp [concatTexts]
  | x :: xs, h => by
    rw [concatTexts, str_append_eq_empty_iff]
    simp only [List.cons_ne_nil, iff_false]
    rintro ⟨hx, -⟩
    exact h x (by simp) hx

theorem textStr_line_ne_empty (t : Xml) : textStr t.text ++ "\n" ≠ "" := by
  intro h
  have := (str_append_eq_empty_iff _ _).mp h
  exact absurd this.2 (by decide)


theorem goodArticle_props {a : Xml} (h : goodPubmedArticle a = true) :
    (∀ t ∈ a.iter "Title", textNonempty t = true) ∧
    (∀ t ∈ a.iter "AbstractText", textNonempty t = true) ∧
    (∀ j ∈ a.iter "Journal", (j.findTag "Title").isSome = true) ∧
    (∀ d ∈ (a.iter "ELocationID").filter (fun d => d.attr "EIdType" = some "doi"),
      textNonempty d = true) := by
  rw [goodPubmedArticle, List.all_eq_true] at h
  refine ⟨?_, ?_, ?_, ?_⟩
  · intro t ht
    obtain ⟨hd, htag⟩ := mem_iter_iff.mp ht
    have := h t hd
    simp [htag, Bool.and_eq_true] at this
    exact this
  · intro t ht
    obtain ⟨hd, htag⟩ := mem_iter_iff.mp ht
    have := h t hd
    simp [htag, Bool.and_eq_true] at this
    exact this
  · intro j hj
    obtain ⟨hd, htag⟩ := mem_iter_iff.mp hj
    have := h j hd
    simp [htag, Bool.and_eq_true] at this
    exact this
  · intro d hd
    obtain ⟨hit, hattr⟩ := List.mem_filter.mp hd
    obtain ⟨hdd, htag⟩ := mem_iter_iff.mp hit
    have := h d hdd
    simp [htag, Bool.and_eq_true, of_decide_eq_true hattr] at this
    exact this

/-- The document body `process_pubmed_result` accumulates for an article:
title texts, abstract texts, journal titles, and doi texts, each line
terminated by a newline. -/
def pubmedResText (a : Xml) : String :=
  "" ++ concatTexts (fun t => textStr t.text ++ "\n") (a.iter "Title") ++
  concatTexts (fun t => textStr t.text ++ "\n") (a.iter "AbstractText") ++
  concatTexts journalLine (a.iter "Journal") ++
  concatTexts (fun t => textStr t.text ++ "\n")
    ((a.iter "ELocationID").filter (fun d => d.attr "EIdType" = some "doi"))

theorem process_pubmed_article_ok {a : Xml} (h : goodPubmedArticle a = true) :
    ∃ cit, process_pubmed_article a = .ok (pubmedResText a, cit) := by
  obtain ⟨hT, hA, hJ, hD⟩ := goodArticle_props h
  obtain ⟨cit, hcit⟩ := journal_fold_ok (a.iter "Journal") hJ
    ((("" ++ concatTexts (fun t => textStr t.text ++ "\n") (a.iter "Title")) ++
        concatTexts (fun t => textStr t.text ++ "\n") (a.iter "AbstractText")),
      pubmed_author_cit a
        ("" ++ concatTexts (fun t => textStr t.text ++ "\n") (a.iter "Title")))
  refine ⟨pubmed_pubdate_cit a
      ((cit ++ concatTexts (fun t => textStr t.text ++ "\n") (a.iter "Volume")) ++
        concatTexts (fun t => textStr t.text ++ "\n") (a.iter "Issue")), ?_⟩
  simp only [process_pubmed_article, bind, Except.bind, pure, Except.pure,
    foldl_text_append, foldl_doi_append]
  rw [hcit]
  rfl


theorem textNonempty_getD {t : Xml} (h : textNonempty t = true) : t.text.getD "" ≠ "" := by
  rw [textNonempty] at h
  rcases hx : t.text with _ | s
  · rw [hx] at h
    cases h
  · rw [hx] at h
    intro hc
    rw [Option.getD_some] at hc
    rw [hc] at h
    cases h

theorem journal_title_mem {a j : Xml} (hj : j ∈ a.iter "Journal") {t : Xml}
    (ht : j.findTag "Title" = some t) : t ∈ a.iter "Title" := by
  obtain ⟨hjd, -⟩ := mem_iter_iff.mp hj
  have htc : t ∈ j.children := List.mem_of_find?_eq_some ht
  have htag : t.tag = "Title" := by
    have := List.find?_some ht
    simpa using this
  exact mem_iter_iff.mpr ⟨mem_desc_trans a hjd (mem_child_descendants htc), htag⟩

theorem pubmedResText_empty_iff {a : Xml} (h : goodPubmedArticle a = true) :
    pubmedResText a = "" ↔ specCombinedText a = "" := by
  obtain ⟨hT, hA, hJ, hD⟩ := goodArticle_props h
  have hCT := concatTexts_eq_empty_iff (g := fun t : Xml => textStr t.text ++ "\n")
    (l := a.iter "Title") (fun x _ => textStr_line_ne_empty x)
  have hCA := concatTexts_eq_empty_iff (g := fun t : Xml => textStr t.text ++ "\n")
    (l := a.iter "AbstractText") (fun x _ => textStr_line_ne_empty x)
  have hCD := concatTexts_eq_empty_iff (g := fun t : Xml => textStr t.text ++ "\n")
    (l := (a.iter "ELocationID").filter (fun d => d.attr "EIdType" = some "doi"))
    (fun x _ => textStr_line_ne_empty x)
  have hCJ : concatTexts journalLine (a.iter "Journal") = "" ↔ a.iter "Journal" = [] :=
    concatTexts_eq_empty_iff (fun j hj => by
      obtain ⟨t, ht⟩ := Option.isSome_iff_exists.mp (hJ j hj)
      rw [journalLine, ht]
      exact textStr_line_ne_empty t)
  have hCT' := concatTexts_eq_empty_iff (g := fun t : Xml => t.text.getD "")
    (l := a.iter "Title") (fun x hx => textNonempty_getD (hT x hx))
  have hCA' := concatTexts_eq_empty_iff (g := fun t : Xml => t.text.getD "")
    (l := a.iter "AbstractText") (fun x hx => textNonempty_getD (hA x hx))
  have hCD' := concatTexts_eq_empty_iff (g := fun t : Xml => t.text.getD "")
    (l := (a.iter "ELocationID").filter (fun d => d.attr "EIdType" = some "doi"))
    (fun x hx => textNonempty_getD (hD x hx))
  rw [pubmedResText, specCombinedText, str_empty_append]
  simp only [str_append_eq_empty_iff, hCT, hCA, hCJ, hCD, hCT', hCA', hCD']
  constructor
  · rintro ⟨⟨⟨h1, h2⟩, h3⟩, h4⟩
    exact ⟨⟨h1, h2⟩, h4⟩
  · rintro ⟨⟨h1, h2⟩, h4⟩
    refine ⟨⟨⟨h1, h2⟩, ?_⟩, h4⟩
    rcases hJL : a.iter "Journal" with _ | ⟨j, js⟩
    · rfl
    · exfalso
      have hjm : j ∈ a.iter "Journal" := by
        rw [hJL]
        exact List.mem_cons_self _ _
      obtain ⟨t, ht⟩ := Option.isSome_iff_exists.mp (hJ j hjm)
      have hmem := journal_title_mem hjm ht
      rw [h1] at hmem
      cases hmem


theorem pubmed_parsed_count :
    ∀ (articles : List Xml) (acc : List PyVal),
    (∀ a ∈ articles, goodPubmedArticle a = true) →
    ∃ ds, articles.foldlM
        (fun acc article => do
          let rc ← process_pubmed_article article
          if rc.1 ≠ "" then
            pure (acc ++ [PyVal.tuple [.str rc.1, .dict [("citation_data", .str rc.2)]]])
          else
            pure acc) acc
      = .ok (acc ++ ds) ∧
      ds.length = (articles.filter (fun a => specCombinedText a ≠ "")).length
  | [], acc, _ => ⟨[], by simp [pure, Except.pure], by simp⟩
  | a :: as, acc, h => by
    obtain ⟨cit, hok⟩ := process_pubmed_article_ok (h a (by simp))
    by_cases hres : pubmedResText a = ""
    · obtain ⟨ds0, hds0, hlen0⟩ := pubmed_parsed_count as acc
        (fun x hx => h x (by simp [hx]))
      refine ⟨ds0, ?_, ?_⟩
      · rw [List.foldlM_cons, hok]
        show (if pubmedResText a ≠ "" then _ else _) >>= _ = _
        rw [if_neg (by simpa using hres)]
        exact hds0
      · rw [List.filter_cons_of_neg, hlen0]
        simp [(pubmedResText_empty_iff (h a (by simp))).mp hres]
    · obtain ⟨ds0, hds0, hlen0⟩ := pubmed_parsed_count as
        (acc ++ [PyVal.tuple [.str (pubmedResText a), .dict [("citation_data", .str cit)]]])
        (fun x hx => h x (by simp [hx]))
      refine ⟨PyVal.tuple [.str (pubmedResText a), .dict [("citation_data", .str cit)]] :: ds0,
        ?_, ?_⟩
      · rw [List.foldlM_cons, hok]
        show (if pubmedResText a ≠ "" then _ else _) >>= _ = _
        rw [if_pos hres]
        show as.foldlM _ _ = _
        rw [hds0, List.append_assoc]
        rfl
      · have hpos : (decide ¬(specCombinedText a = "")) = true := by
          simp only [decide_eq_true_eq]
          exact fun hc => hres ((pubmedResText_empty_iff (h a (by simp))).mpr hc)
        rw [List.filter_cons_of_pos (by simpa using hpos), List.length_cons, hlen0]
        rfl

/-- C7: for every literature payload that parses as a well-formed article
tree, the number of documents produced by `process_pubmed_result` equals the
number of article nodes whose combined title, abstract and DOI text is
non-empty. -/
theorem pubmed_doc_count_matches_nonempty_articles
    (parse : String → Option Xml) (v : PyVal) (root : Xml)
    (hp : pyParseXml parse v = some root)
    (hw : wellFormedArticleTree root = true) :
    ∃ ds, process_pubmed_result parse v = .ok ds ∧
      ds.length
        = (root.children.filter (fun a => specCombinedText a ≠ "")).length := by
  rw [wellFormedArticleTree, List.all_eq_true] at hw
  obtain ⟨ds, hds, hlen⟩ := pubmed_parsed_count root.children [] hw
  refine ⟨ds, ?_, hlen⟩
  rw [process_pubmed_result, hp]
  show root.children.foldlM _ _ = _
  rw [hds]
  rfl

/-- Witness for C7 at a concrete two-article tree: one article with a title,
one empty article. -/
theorem pubmed_doc_count_matches_nonempty_articles_witness :
    ∃ ds, process_pubmed_result
        (fun _ => some (Xml.elem "PubmedArticleSet" [] Option.none
          [Xml.elem "PubmedArticle" [] Option.none
            [Xml.elem "Title" [] (some "BRCA1 and cancer") []],
           Xml.elem "PubmedArticle" [] Option.none []]))
        (.str "payload") = .ok ds ∧
      ds.length = ((Xml.elem "PubmedArticleSet" [] Option.none
          [Xml.elem "PubmedArticle" [] Option.none
            [Xml.elem "Title" [] (some "BRCA1 and cancer") []],
           Xml.elem "PubmedArticle" [] Option.none []]).children.filter
        (fun a => specCombinedText a ≠ "")).length :=
  pubmed_doc_count_matches_nonempty_articles
    (fun _ => some (Xml.elem "PubmedArticleSet" [] Option.none
      [Xml.elem "PubmedArticle" [] Option.none
        [Xml.elem "Title" [] (some "BRCA1 and cancer") []],
       Xml.elem "PubmedArticle" [] Option.none []]))
    (.str "payload")
    (Xml.elem "PubmedArticleSet" [] Option.none
      [Xml.elem "PubmedArticle" [] Option.none
        [Xml.elem "Title" [] (some "BRCA1 and cancer") []],
       Xml.elem "PubmedArticle" [] Option.none []])
    rfl rfl

/-- Are all research notes of a generif value processable: each note (of the
first twenty) is a dictionary whose `text` value is a string or falsy? -/
def generifOK (g : PyVal) : Bool :=
  match pySlice20 g with
  | .ok rifs => rifs.all (fun rif => isDict rif &&
      (match dGetD rif "text" PyVal.none with
       | .str _ => true
       | v => !pyTruthy v))
  | .error _ => false

/-- Are all pathway-database entries of a pathway object dictionaries (after
the singleton normalization)? -/
def pathwayEntriesOK (p : PyVal) : Bool :=
  (["kegg", "pid", "reactome", "wikipathways", "netpath", "biocarta"] :
      List String).all
    (fun k => (normListVal (dGetD p k (.list []))).all isDict)

/-- A gene record on which `process_mygene_result` performs only well-typed
accesses: the record and its `refseq` sub-object are dictionaries, the
refseq id lists are joinable, the generif notes (when the summary is absent
and notes are used) are processable, and the pathway object (when truthy) is
a dictionary with dictionary entries. -/
def mygeneRecOK (r : PyVal) : Bool :=
  isDict r &&
  isDict (dGetD r "refseq" (.dict [])) &&
  joinOK (dGetD (dGetD r "refseq" (.dict [])) "genomic" (.list [])) &&
  joinOK (dGetD (dGetD r "refseq" (.dict [])) "rna" (.list [])) &&
  (pyTruthy (dGetD r "summary" PyVal.none) ||
   !pyTruthy (dGetD r "generif" PyVal.none) ||
   generifOK (dGetD r "generif" PyVal.none)) &&
  (!pyTruthy (dGetD r "pathway" PyVal.none) ||
   (isDict (dGetD r "pathway" PyVal.none) &&
    pathwayEntriesOK (dGetD r "pathway" PyVal.none)))

theorem mygene_rif_fold_ok :
    ∀ (rifs : List PyVal),
      (∀ rif ∈ rifs, isDict rif = true ∧
        (match dGetD rif "text" PyVal.none with
         | .str _ => true
         | v => !pyTruthy v) = true) →
      ∀ acc : String × String, ∃ rc, rifs.foldlM mygene_rif_step acc = .ok rc
  | [], _, acc => ⟨acc, rfl⟩
  | rif :: rifs, h, acc => by
    obtain ⟨hd, htx⟩ := h rif (by simp)
    have hstep : ∃ rc, mygene_rif_step acc rif = .ok rc := by
      rw [mygene_rif_step]
      simp only [pyGet, pyGetD_of_isDict hd, bind, Except.bind, pure, Except.pure]
      by_cases ht : pyTruthy (dGetD rif "text" PyVal.none) = true
      · obtain ⟨s, hs⟩ : ∃ s, dGetD rif "text" PyVal.none = .str s := by
          rcases hv : dGetD rif "text" PyVal.none with _ | b | n | s | xs | xs | kvs <;>
            rw [hv] at htx ht <;> simp_all
        refine ⟨(acc.1 ++ s,
          if pyTruthy (dGetD rif "pubmed" PyVal.none) then
            acc.2 ++ " Pubmed ID: " ++ pyStr (dGetD rif "pubmed" PyVal.none)
          else acc.2), ?_⟩
        rw [hs] at ht ⊢
        simp [ht, pyAddStr, bind, Except.bind, pure, Except.pure]
      · refine ⟨acc, ?_⟩
        simp [ht]
    obtain ⟨rc1, hrc1⟩ := hstep
    obtain ⟨rc2, hrc2⟩ := mygene_rif_fold_ok rifs (fun x hx => h x (by simp [hx])) rc1
    exact ⟨rc2, by rw [List.foldlM_cons, hrc1]; exact hrc2⟩


theorem mygene_output_summary_ok {g rna summary generif : PyVal}
    (hg : joinOK g = true) (hr : joinOK rna = true)
    (hsg : (pyTruthy summary || !pyTruthy generif || generifOK generif) = true)
    (name symbol taxid type_of_gene pos : PyVal) :
    ∃ rc, mygene_output_summary name g rna symbol taxid type_of_gene pos summary generif
      = .ok rc := by
  obtain ⟨out, hout⟩ := mygene_summary_fields_ok hg hr name symbol taxid type_of_gene pos
  by_cases hs : pyTruthy summary = true
  · exact ⟨(out ++ "Summary of " ++ pyStr name ++ ": " ++ pyStr summary ++ "\n", ""),
      by simp only [mygene_output_summary, hout, hs, if_true, bind, Except.bind,
        pure, Except.pure]⟩
  · by_cases hgf : pyTruthy generif = true
    · have hok : generifOK generif = true := by
        rw [Bool.or_eq_true, Bool.or_eq_true] at hsg
        rcases hsg with (hsg | hsg) | hsg
        · exact absurd hsg hs
        · rw [hgf] at hsg
          cases hsg
        · exact hsg
      rw [generifOK] at hok
      rcases hsl : pySlice20 generif with e | rifs
      · rw [hsl] at hok
        cases hok
      · rw [hsl] at hok
        obtain ⟨rc, hrc⟩ := mygene_rif_fold_ok rifs
          (by
            intro rif hrif
            have := (List.all_eq_true.mp hok) rif hrif
            rw [Bool.and_eq_true] at this
            exact this)
          (out, "")
        refine ⟨rc, ?_⟩
        simp only [mygene_output_summary, hout, hs, hgf, hsl, if_true, if_false,
          bind, Except.bind, pure, Except.pure, Bool.false_eq_true]
        exact hrc
    · refine ⟨(out, ""), ?_⟩
      simp only [mygene_output_summary, hout, hs, hgf, if_false, bind, Except.bind,
        pure, Except.pure, Bool.false_eq_true]


/-- A (body, citation) document pair shape. -/
def isDocPair (d : PyVal) : Prop :=
  ∃ body cit, d = PyVal.tuple [.str body, .dict [("citation_data", .str cit)]]

theorem process_mygene_one_wf {r : PyVal} (h : mygeneRecOK r = true) :
    ∃ ds, process_mygene_one r = .ok ds ∧ ∀ d ∈ ds, isDocPair d := by
  rw [mygeneRecOK, Bool.and_eq_true, Bool.and_eq_true, Bool.and_eq_true,
    Bool.and_eq_true, Bool.and_eq_true] at h
  obtain ⟨⟨⟨⟨⟨h1, h2⟩, h3⟩, h4⟩, h5⟩, h6⟩ := h
  obtain ⟨⟨outS, citS⟩, hrc⟩ := mygene_output_summary_ok h3 h4 h5
    (dGetD r "name" PyVal.none) (dGetD r "symbol" PyVal.none)
    (dGetD r "taxid" PyVal.none) (dGetD r "type_of_gene" PyVal.none)
    (dGetD r "genomic_pos_hg19" PyVal.none)
  by_cases hp : pyTruthy (dGetD r "pathway" PyVal.none) = true
  · have h6' : isDict (dGetD r "pathway" PyVal.none) = true ∧
        pathwayEntriesOK (dGetD r "pathway" PyVal.none) = true := by
      rw [Bool.or_eq_true] at h6
      rcases h6 with h6 | h6
      · rw [hp] at h6
        cases h6
      · rwa [Bool.and_eq_true] at h6
    obtain ⟨hpd, hpe⟩ := h6'
    have hels : ∀ kv ∈ ([("kegg", normListVal (dGetD (dGetD r "pathway" PyVal.none) "kegg" (.list []))),
        ("pid", normListVal (dGetD (dGetD r "pathway" PyVal.none) "pid" (.list []))),
        ("reactome", normListVal (dGetD (dGetD r "pathway" PyVal.none) "reactome" (.list []))),
        ("wikipathways", normListVal (dGetD (dGetD r "pathway" PyVal.none) "wikipathways" (.list []))),
        ("netpath", normListVal (dGetD (dGetD r "pathway" PyVal.none) "netpath" (.list []))),
        ("biocarta", normListVal (dGetD (dGetD r "pathway" PyVal.none) "biocarta" (.list [])))] :
          List (String × List PyVal)),
        kv.2.all isDict = true := by
      have hall := List.all_eq_true.mp hpe
      intro kv hkv
      simp only [List.mem_cons, List.not_mem_nil, or_false] at hkv
      rcases hkv with rfl | rfl | rfl | rfl | rfl | rfl
      · exact hall "kegg" (by simp)
      · exact hall "pid" (by simp)
      · exact hall "reactome" (by simp)
      · exact hall "wikipathways" (by simp)
      · exact hall "netpath" (by simp)
      · exact hall "biocarta" (by simp)
    obtain ⟨outP, lst, houtP⟩ := mygene_output_pathway_ok h3 h4 hels
      (dGetD r "name" PyVal.none) (dGetD r "symbol" PyVal.none)
      (dGetD r "taxid" PyVal.none) (dGetD r "type_of_gene" PyVal.none)
      (dGetD r "genomic_pos_hg19" PyVal.none)
    have hPne : pyStrip (outP ++ "PATHWAYS\n\n" ++ lst) ≠ "" := by
      refine pyStrip_ne_empty (c := 'P') ?_ (by decide)
      exact mem_str_append_left _ _ (mem_str_append_right _ _ (by decide))
    refine ⟨(if pyStrip outS ≠ "" then
        [PyVal.tuple [.str (pyStrip outS), .dict [("citation_data", .str citS)]]]
      else []) ++
        [PyVal.tuple [.str (pyStrip (outP ++ "PATHWAYS\n\n" ++ lst)),
          .dict [("citation_data", .str "")]]], ?_, ?_⟩
    · simp only [process_mygene_one, pyGet, pyGetD_of_isDict h1, pyGetD_of_isDict h2,
        pyGetD_of_isDict hpd, bind, Except.bind, pure, Except.pure, hrc, hp, if_true,
        houtP]
      simp [hPne]
    · intro d hd
      rcases List.mem_append.mp hd with hd | hd
      · by_cases hne : pyStrip outS ≠ ""
        · rw [if_pos hne] at hd
          rcases List.mem_singleton.mp hd with rfl
          exact ⟨_, _, rfl⟩
        · rw [if_neg hne] at hd
          cases hd
      · rcases List.mem_singleton.mp hd with rfl
        exact ⟨_, _, rfl⟩
  · refine ⟨(if pyStrip outS ≠ "" then
        [PyVal.tuple [.str (pyStrip outS), .dict [("citation_data", .str citS)]]]
      else []), ?_, ?_⟩
    · simp only [process_mygene_one, pyGet, pyGetD_of_isDict h1, pyGetD_of_isDict h2,
        bind, Except.bind, pure, Except.pure, hrc, hp, if_false]
      simp [hp]
    · intro d hd
      by_cases hne : pyStrip outS ≠ ""
      · rw [if_pos hne] at hd
        rcases List.mem_singleton.mp hd with rfl
        exact ⟨_, _, rfl⟩
      · rw [if_neg hne] at hd
        cases hd

theorem mygene_fold_wf (rs : List PyVal) (h : ∀ r ∈ rs, mygeneRecOK r = true) :
    ∀ acc : List PyVal,
      ∃ newds,
        rs.foldlM
          (fun acc r => do
            let ds ← process_mygene_one r
            pure (acc ++ ds)) acc = .ok (acc ++ newds) ∧
        ∀ d ∈ newds, isDocPair d := by
  induction rs with
  | nil =>
    intro acc
    exact ⟨[], by simp [pure, Except.pure], by intro d hd; cases hd⟩
  | cons r rs ih =>
    intro acc
    obtain ⟨ds0, hds0, hds0p⟩ := process_mygene_one_wf (h r (by simp))
    obtain ⟨newds, h1, h2⟩ := ih (fun x hx => h x (by simp [hx])) (acc ++ ds0)
    refine ⟨ds0 ++ newds, ?_, ?_⟩
    · rw [List.foldlM_cons, hds0]
      show rs.foldlM _ _ = _
      rw [h1, List.append_assoc]
    · intro d hd
      rcases List.mem_append.mp hd with hd | hd
      · exact hds0p d hd
      · exact h2 d hd


theorem process_one_nondict_raises {v : PyVal} (h : isDict v = false) :
    process_myvariant_one v = .error .attributeError ∧
    process_mygene_one v = .error .attributeError := by
  cases v <;> simp_all [isDict] <;> constructor <;> rfl

theorem process_result_nondict_raises {v : PyVal} (h : isDict v = false)
    (hl : pyWrapList v = [v]) :
    process_myvariant_result v = .error .attributeError ∧
    process_mygene_result v = .error .attributeError := by
  obtain ⟨hv, hg⟩ := process_one_nondict_raises h
  constructor
  · rw [process_myvariant_result, hl, List.foldlM_cons]
    simp only [hv, bind, Except.bind]
  · rw [process_mygene_result, hl, List.foldlM_cons]
    simp only [hg, bind, Except.bind]

theorem journal_fold_err :
    ∀ (js : List Xml), (∃ j ∈ js, j.findTag "Title" = Option.none) →
    ∀ rc : String × String,
      js.foldlM pubmed_journal_step rc = .error .attributeError
  | [], h, _ => by
    obtain ⟨j, hj, -⟩ := h
    cases hj
  | j0 :: js, h, rc => by
    rcases hf : j0.findTag "Title" with _ | t
    · rw [List.foldlM_cons]
      show (pubmed_journal_step rc j0) >>= _ = _
      rw [pubmed_journal_step, hf]
      rfl
    · obtain ⟨j, hj, hjn⟩ := h
      rcases List.mem_cons.mp hj with rfl | hj
      · rw [hf] at hjn
        cases hjn
      · rw [List.foldlM_cons]
        show (pubmed_journal_step rc j0) >>= _ = _
        rw [pubmed_journal_step, hf]
        exact journal_fold_err js ⟨j, hj, hjn⟩ _

theorem process_pubmed_article_err {a : Xml}
    (h : ∃ j ∈ a.iter "Journal", j.findTag "Title" = Option.none) :
    process_pubmed_article a = .error .attributeError := by
  simp only [process_pubmed_article, bind, Except.bind, pure, Except.pure]
  rw [journal_fold_err (a.iter "Journal") h]

theorem process_pubmed_article_ok_of_titles {a : Xml}
    (hJ : ∀ j ∈ a.iter "Journal", (j.findTag "Title").isSome = true) :
    ∃ cit, process_pubmed_article a = .ok (pubmedResText a, cit) := by
  obtain ⟨cit, hcit⟩ := journal_fold_ok (a.iter "Journal") hJ
    ((("" ++ concatTexts (fun t => textStr t.text ++ "\n") (a.iter "Title")) ++
        concatTexts (fun t => textStr t.text ++ "\n") (a.iter "AbstractText")),
      pubmed_author_cit a
        ("" ++ concatTexts (fun t => textStr t.text ++ "\n") (a.iter "Title")))
  refine ⟨pubmed_pubdate_cit a
      ((cit ++ concatTexts (fun t => textStr t.text ++ "\n") (a.iter "Volume")) ++
        concatTexts (fun t => textStr t.text ++ "\n") (a.iter "Issue")), ?_⟩
  simp only [process_pubmed_article, bind, Except.bind, pure, Except.pure,
    foldl_text_append, foldl_doi_append]
  rw [hcit]
  rfl

theorem process_pubmed_parsed_err :
    ∀ (articles : List Xml),
      (∃ a ∈ articles, ∃ j ∈ a.iter "Journal", j.findTag "Title" = Option.none) →
      ∀ acc : List PyVal,
      articles.foldlM
        (fun acc article => do
          let rc ← process_pubmed_article article
          if rc.1 ≠ "" then
            pure (acc ++ [PyVal.tuple [.str rc.1, .dict [("citation_data", .str rc.2)]]])
          else
            pure acc) acc
      = .error .attributeError
  | [], h, _ => by
    obtain ⟨a, ha, -⟩ := h
    cases ha
  | a0 :: as, h, acc => by
    by_cases hbad : ∃ j ∈ a0.iter "Journal", j.findTag "Title" = Option.none
    · rw [List.foldlM_cons]
      simp only [process_pubmed_article_err hbad, bind, Except.bind]
    · have hJ : ∀ j ∈ a0.iter "Journal", (j.findTag "Title").isSome = true := by
        intro j hj
        rcases hf : j.findTag "Title" with _ | t
        · exact absurd ⟨j, hj, hf⟩ hbad
        · rfl
      obtain ⟨cit, hok⟩ := process_pubmed_article_ok_of_titles hJ
      have htail : ∃ a ∈ as, ∃ j ∈ a.iter "Journal", j.findTag "Title" = Option.none := by
        obtain ⟨a, ha, hrest⟩ := h
        rcases List.mem_cons.mp ha with rfl | ha
        · exact absurd hrest hbad
        · exact ⟨a, ha, hrest⟩
      rw [List.foldlM_cons]
      simp only [hok, bind, Except.bind]
      by_cases hne : pubmedResText a0 ≠ ""
      · rw [if_pos hne]
        simp only [pure, Except.pure]
        exact process_pubmed_parsed_err as htail _
      · rw [if_neg hne]
        simp only [pure, Except.pure]
        exact process_pubmed_parsed_err as htail _

theorem process_pubmed_result_err {parse : String → Option Xml} {v : PyVal}
    {root : Xml} (hp : pyParseXml parse v = some root)
    (h : ∃ a ∈ root.children, ∃ j ∈ a.iter "Journal",
      j.findTag "Title" = Option.none) :
    process_pubmed_result parse v = .error .attributeError := by
  rw [process_pubmed_result, hp]
  exact process_pubmed_parsed_err root.children h []

/-- C4 (amended): each processor returns a list of (body-text,
citation-metadata) pairs on well-formed inputs — the literature processor
degrading, on input it cannot parse, to the raw input wrapped in a list (the
input itself when it is already a list) — but the processors are not
exception-free: the gene and variant processors raise `AttributeError` on
records that are not dictionaries, and the literature processor raises on a
parsed article containing a `Journal` without a `Title` child, instead of
degrading. -/
theorem processors_degrade_amended :
    (∀ (parse : String → Option Xml) (v : PyVal), pyParseXml parse v = Option.none →
      process_pubmed_result parse v = .ok (pyWrapList v)) ∧
    (∀ rs : List PyVal, (∀ r ∈ rs, myvariantRecOK r = true) →
      ∃ ds, process_myvariant_result (.list rs) = .ok ds ∧ ds.length = rs.length ∧
        ∀ d ∈ ds, ∃ body cit,
          d = .tuple [.str body, .dict [("citation_data", .str cit)]]) ∧
    (∀ rs : List PyVal, (∀ r ∈ rs, mygeneRecOK r = true) →
      ∃ ds, process_mygene_result (.list rs) = .ok ds ∧
        ∀ d ∈ ds, ∃ body cit,
          d = .tuple [.str body, .dict [("citation_data", .str cit)]]) ∧
    (∀ v : PyVal, isDict v = false →
      process_myvariant_one v = .error .attributeError ∧
      process_mygene_one v = .error .attributeError ∧
      (pyWrapList v = [v] →
        process_myvariant_result v = .error .attributeError ∧
        process_mygene_result v = .error .attributeError)) ∧
    (∀ (parse : String → Option Xml) (v : PyVal) (root : Xml),
      pyParseXml parse v = some root →
      (∃ a ∈ root.children, ∃ j ∈ a.iter "Journal",
        j.findTag "Title" = Option.none) →
      process_pubmed_result parse v = .error .attributeError) := by
  refine ⟨?_, ?_, ?_, ?_, ?_⟩
  · intro parse v h
    simp [process_pubmed_result, h]
  · intro rs h
    rcases myvariant_fold_ok rs h [] with ⟨newds, h1, h2, h3⟩
    exact ⟨newds, by simpa [process_myvariant_result, pyWrapList] using h1, h2, h3⟩
  · intro rs h
    rcases mygene_fold_wf rs h [] with ⟨newds, h1, h2⟩
    exact ⟨newds, by simpa [process_mygene_result, pyWrapList] using h1,
      fun d hd => h2 d hd⟩
  · intro v h
    obtain ⟨h1, h2⟩ := process_one_nondict_raises h
    exact ⟨h1, h2, fun hl => process_result_nondict_raises h hl⟩
  · intro parse v root hp h
    exact process_pubmed_result_err hp h

/-- Witness for C4 (amended): a failing parse, a concrete variant record, a
concrete gene record, a non-dictionary record, and a parsed tree with a
titleless journal. -/
theorem processors_degrade_amended_witness :
    process_pubmed_result (fun _ => Option.none) (.str "not xml")
        = .ok [.str "not xml"] ∧
      (∃ ds, process_myvariant_result
          (.list [.dict [("_id", .str "chr7:g.140453136A>T")]]) = .ok ds ∧
        ds.length = 1) ∧
      (∃ ds, process_mygene_result (.list [.dict [("name", .str "BRCA1")]])
          = .ok ds ∧ ∀ d ∈ ds, ∃ body cit,
            d = PyVal.tuple [.str body, .dict [("citation_data", .str cit)]]) ∧
      process_mygene_one (.int 42) = .error .attributeError ∧
      process_pubmed_result
        (fun _ => some (Xml.elem "PubmedArticleSet" [] Option.none
          [Xml.elem "PubmedArticle" [] Option.none
            [Xml.elem "Journal" [] Option.none []]]))
        (.str "payload") = .error .attributeError := by
  have h := processors_degrade_amended
  refine ⟨h.1 (fun _ => Option.none) (.str "not xml") rfl, ?_, ?_, ?_, ?_⟩
  · rcases h.2.1 [.dict [("_id", .str "chr7:g.140453136A>T")]]
      (by
        intro r hr
        rcases List.mem_singleton.mp hr with rfl
        rfl) with ⟨ds, h1, h2, -⟩
    exact ⟨ds, h1, h2⟩
  · exact h.2.2.1 [.dict [("name", .str "BRCA1")]]
      (by
        intro r hr
        rcases List.mem_singleton.mp hr with rfl
        rfl)
  · exact (h.2.2.2.1 (.int 42) rfl).2.1
  · exact h.2.2.2.2
      (fun _ => some (Xml.elem "PubmedArticleSet" [] Option.none
        [Xml.elem "PubmedArticle" [] Option.none
          [Xml.elem "Journal" [] Option.none []]]))
      (.str "payload")
      (Xml.elem "PubmedArticleSet" [] Option.none
        [Xml.elem "PubmedArticle" [] Option.none
          [Xml.elem "Journal" [] Option.none []]])
      rfl
      ⟨Xml.elem "PubmedArticle" [] Option.none [Xml.elem "Journal" [] Option.none []],
        List.mem_singleton_self _,
        Xml.elem "Journal" [] Option.none [],
        List.mem_singleton_self _, rfl⟩

end Insight
